import Mathlib

/-!
# cli-help: a verification development of `main.go`

The program is a single Go file: a read-eval loop that optionally sends the
typed line to a remote model (`askAI`), asks for confirmation, filters
commands that look like `rm`, and hands the rest to `bash -c`.

Modelling conventions

* A Go `string` is a list of Unicode code points (`GoString`).  The program
  only ever compares against ASCII literals and trims Unicode white space, so
  on well-formed UTF-8 text the byte view and the code-point view agree.
* Everything the program does to the outside is recorded as a list of
  `Event`s in program order.  Two of the events, `Event.askAI` and
  `Event.gate`, print nothing: they mark the call of `askAI` (line 199) and
  the evaluation of the safety filter (line 218).
* The operating system, the network and the subprocess are a `World` of
  functions the program queries.  Every statement is for all worlds.
* Standard input is a finite stream of which `stdin` is the part not yet
  returned by `ReadString`, whether `bufio` has buffered it or not; its end is
  the only end-of-file.  The subprocess inherits the descriptor (line 226), so
  what is left unread after a command is for the world to say (`World.run`).
* A pass of the loop ends in one of four ways (`Status`): it goes round
  again, it reaches the `break` of line 194, the program dies of the nil
  dereference of line 88, or the command it runs ends the program (the child
  runs with the user's rights and can signal its parent).  Other signals from
  outside, which end any process at any point, are not part of the model.
-/

namespace CliHelp

/-- A Go string, as its sequence of code points. -/
abbrev GoString := List Char

/-! ## Go standard library: `strings` and `unicode` -/

/-- Go `unicode.IsSpace`: the six ASCII blanks, NEL, NBSP, and the code
points of the Unicode `White_Space` property above Latin-1. -/
def isSpace (c : Char) : Bool :=
  let n := c.toNat
  (0x09 ≤ n && n ≤ 0x0D) || n == 0x20 || n == 0x85 || n == 0xA0 || n == 0x1680 ||
  (0x2000 ≤ n && n ≤ 0x200A) || n == 0x2028 || n == 0x2029 || n == 0x202F ||
  n == 0x205F || n == 0x3000

/-- Go `strings.TrimLeftFunc`. -/
def trimLeftFunc (f : Char → Bool) (s : GoString) : GoString :=
  s.dropWhile f

/-- Go `strings.TrimRightFunc`. -/
def trimRightFunc (f : Char → Bool) (s : GoString) : GoString :=
  (s.reverse.dropWhile f).reverse

/-- Go `strings.TrimSpace`: leading and trailing white space removed. -/
def trimSpace (s : GoString) : GoString :=
  trimRightFunc isSpace (trimLeftFunc isSpace s)

/-- Go `strings.Trim s cutset`: leading and trailing code points of `cutset`
removed. -/
def trim (s cutset : GoString) : GoString :=
  trimRightFunc (fun c => cutset.contains c) (trimLeftFunc (fun c => cutset.contains c) s)

/-- Go `strings.HasPrefix`. -/
def hasPrefix : GoString → GoString → Bool
  | _, [] => true
  | [], _ :: _ => false
  | c :: s, p :: ps => c == p && hasPrefix s ps

/-- Go `strings.Contains`: `substr` occurs at some position of `s`. -/
def contains : GoString → GoString → Bool
  | [], substr => hasPrefix [] substr
  | c :: s, substr => hasPrefix (c :: s) substr || contains s substr

/-! ## The safety filter (`main`, lines 217-221) -/

/-- The condition of the `if` on line 218: the command is refused. -/
def safetyFilter (unsafeMode : Bool) (command : GoString) : Bool :=
  !unsafeMode &&
    (hasPrefix command "rm ".toList || contains command " rm ".toList ||
      command == "rm".toList)

/-- The Safety Gate of the specification: the command gets past line 218. -/
def isAllowed (command : GoString) (unsafeMode : Bool) : Bool :=
  !safetyFilter unsafeMode command

/-! ## Go standard library: `bufio` -/

/-- Go `bufio.Reader.ReadString delim` on the unread input: the text up to
and including the first `delim`, and what stays unread.  When the input ends
before a `delim` the text read so far is returned (Go also returns `io.EOF`,
which `main` discards). -/
def readString (delim : Char) : GoString → GoString × GoString
  | [] => ([], [])
  | c :: s =>
    if c = delim then ([c], s)
    else ((c :: (readString delim s).1), (readString delim s).2)

/-- Go `strings.Split s sep` for a one-character separator. -/
def split (sep : Char) : GoString → List GoString
  | [] => [[]]
  | c :: s =>
    if c = sep then [] :: split sep s
    else
      match split sep s with
      | [] => [[c]]
      | l :: ls => (c :: l) :: ls

/-! ## Values of `encoding/json` -/

/-- What `json.Unmarshal` stores in an `interface{}`: `nil`, `bool`,
`float64` (kept as its literal, never inspected by the program), `string`,
`[]interface{}` and `map[string]interface{}` (as its key/value pairs). -/
inductive JVal where
  | null : JVal
  | bool (b : Bool) : JVal
  | num (literal : GoString) : JVal
  | str (s : GoString) : JVal
  | arr (xs : List JVal) : JVal
  | obj (fields : List (GoString × JVal)) : JVal

/-- A Go `map[string]interface{}`. -/
abbrev JObject := List (GoString × JVal)

/-- Go map indexing `m[key]`; `none` is the missing key. -/
def JObject.get (m : JObject) (key : GoString) : Option JVal :=
  m.lookup key

/-! ## The outside world -/

/-- The errors `askAI` returns. -/
inductive Error where
  /-- Line 55: `fmt.Errorf("missing AWS_BEARER_TOKEN_BEDROCK env var")`. -/
  | missingCredential : Error
  /-- The error of `client.Do`, line 94. -/
  | transport (e : GoString) : Error
  /-- Line 101: `fmt.Errorf("API error: %s", string(b))`. -/
  | api (body : GoString) : Error
  /-- The error of `json.Unmarshal`, line 110. -/
  | json (e : GoString) : Error
  /-- Line 122: `fmt.Errorf("unexpected AI response format: %+v", result)`. -/
  | unexpectedFormat (result : JObject) : Error
  /-- Line 88: the run-time error of the nil dereference `req.Header.Set`;
  `askAI` panics with it and does not return. -/
  | nilRequest : Error

/-- One entry of the `messages` array of the request body. -/
structure Message where
  role : GoString
  content : GoString
deriving DecidableEq

/-- The map `payload` of lines 74-83, before `json.Marshal`. -/
structure Payload where
  anthropic_version : GoString
  messages : List Message
  max_tokens : Nat
deriving DecidableEq

/-- The request built on lines 87-89. -/
structure Request where
  method : GoString
  url : GoString
  authorization : GoString
  contentType : GoString
  payload : Payload
deriving DecidableEq

/-- What `askAI` looks at in an HTTP response: status code and body. -/
structure Response where
  statusCode : Nat
  body : GoString
deriving DecidableEq

/-- What running a command comes to, seen from the loop. -/
structure RunResult where
  /-- The error of `cmd.Run()`, `none` when the command succeeds. -/
  err : Option GoString
  /-- The input left unread once the child is done. -/
  unread : GoString
  /-- Whether the child ended the program, so that `cmd.Run()` never returns. -/
  killed : Bool

/-- Everything the program asks of its environment. -/
structure World where
  /-- Go `os.Getenv`: the empty string for an unset variable. -/
  getenv : GoString → GoString
  /-- Go `runtime.GOOS`. -/
  goos : GoString
  /-- Go `runtime.GOARCH`. -/
  goarch : GoString
  /-- Go `os.ReadFile`: `none` when it fails. -/
  readFile : GoString → Option GoString
  /-- Go `url.Parse`, as `http.NewRequestWithContext` calls it on line 87:
  whether the URL parses.  When it does not, the request returned is nil. -/
  urlParses : GoString → Bool
  /-- Go `client.Do` followed by `io.ReadAll` of the body. -/
  httpDo : Request → Except GoString Response
  /-- Go `json.Unmarshal` into a `map[string]interface{}`. -/
  unmarshal : GoString → Except GoString JObject
  /-- Go `cmd.Run()` of `bash -c command` with `cmd.Stdin = os.Stdin` (lines
  223-228), given the input unread before it. -/
  run : GoString → GoString → RunResult

/-- The texts the program prints. -/
inductive Msg where
  | help : Msg
  | version : Msg
  | unsafeEnabled : Msg
  | aiEnabled : Msg
  | verboseEnabled : Msg
  | welcome : Msg
  | runningUnsafe : Msg
  | runningSafe : Msg
  | aiModeOn : Msg
  | typeYourCommand : Msg
  /-- The prompt marker `"> "`, line 188. -/
  | prompt : Msg
  /-- Line 193. -/
  | goodbye : Msg
  /-- Line 105. -/
  | rawResponse (body : GoString) : Msg
  /-- Line 201. -/
  | aiError (e : Error) : Msg
  /-- Line 204. -/
  | suggested (cmdOut : GoString) : Msg
  /-- Line 205. -/
  | runThis : Msg
  /-- Line 209. -/
  | skipped : Msg
  /-- The block message, line 219. -/
  | rmNotAllowed : Msg
  /-- Line 230. -/
  | commandFailed (e : GoString) : Msg

/-- What the program does, in program order. -/
inductive Event where
  /-- Text written to standard output. -/
  | print (m : Msg) : Event
  /-- The call `askAI(input)` on line 199. -/
  | askAI (input : GoString) : Event
  /-- The request handed to `client.Do` on line 92. -/
  | http (req : Request) : Event
  /-- The safety filter of line 218 evaluated on `command`, with its verdict. -/
  | gate (command : GoString) (allowed : Bool) : Event
  /-- The subprocess `bash -c command` started on line 228. -/
  | exec (command : GoString) : Event

/-- The commands handed to the Command Executor, in order. -/
def executed : List Event → List GoString
  | [] => []
  | .exec c :: es => c :: executed es
  | _ :: es => executed es

/-- The commands the safety filter was evaluated on, in order. -/
def gated : List Event → List GoString
  | [] => []
  | .gate c _ :: es => c :: gated es
  | _ :: es => gated es

/-- The requests sent to the network, in order. -/
def requests : List Event → List Request
  | [] => []
  | .http r :: es => r :: requests es
  | _ :: es => requests es

/-- The prompts (`"> "` and `"Run this? (y/n): "`) shown, counted. -/
def prompts : List Event → Nat
  | [] => 0
  | .print .prompt :: es => prompts es + 1
  | .print .runThis :: es => prompts es + 1
  | _ :: es => prompts es

/-- The calls of `askAI`, in order. -/
def aiCalls : List Event → List GoString
  | [] => []
  | .askAI p :: es => p :: aiCalls es
  | _ :: es => aiCalls es

/-! ## `getFriendlyOS` (lines 29-49) -/

/-- The human-readable OS label. -/
def getFriendlyOS (w : World) : GoString :=
  if w.goos = "darwin".toList then "macOS".toList
  else if w.goos = "linux".toList then
    match w.readFile "/etc/os-release".toList with
    | some data =>
      match (split '\n' data).find? (fun line => hasPrefix line "PRETTY_NAME=".toList) with
      | some line => trim (line.drop "PRETTY_NAME=".toList.length) "\"".toList
      | none => "Linux".toList
    | none => "Linux".toList
  else if w.goos = "windows".toList then "Windows".toList
  else w.goos

/-! ## `askAI` (lines 52-123) -/

/-- The raw string literal appended to the prompt on lines 69-72. -/
def directive : GoString :=
  ("\nRespond only with the shell command(s)." ++
    "\nIf multiple commands are needed, return them as a multi-line script." ++
    "\nDo NOT include explanations.").toList

/-- Line 67: `fmt.Sprintf("System Info: OS=%s Arch=%s\n", osFriendly, arch)`. -/
def systemInfo (osFriendly arch : GoString) : GoString :=
  "System Info: OS=".toList ++ osFriendly ++ " Arch=".toList ++ arch ++ "\n".toList

/-- Lines 69-72: the Prompt Builder. -/
def fullPrompt (osFriendly arch prompt : GoString) : GoString :=
  systemInfo osFriendly arch ++ prompt ++ directive

/-- What `askAI` returns, `(string, error)`, and what it did on the way. -/
structure AskResult where
  text : GoString
  err : Option Error
  events : List Event
  /-- Whether the call panicked instead of returning; `err` is then the
  run-time error of the panic. -/
  panicked : Bool

/-- Lines 113-122: the text of `result["content"][0]["text"]`, when it has
that shape. -/
def extractText (result : JObject) : Option GoString :=
  match result.get "content".toList with
  | some (.arr (first :: _)) =>
    match first with
    | .obj fields =>
      match JObject.get fields "text".toList with
      | some (.str text) => some text
      | _ => none
    | _ => none
  | _ => none

/-- The request of lines 58-89 for a credential and a prompt. -/
def buildRequest (w : World) (apiKey prompt : GoString) : Request :=
  let modelID :=
    if w.getenv "BEDROCK_MODEL_ID".toList = [] then
      "anthropic.claude-3-haiku-20240307-v1:0".toList
    else w.getenv "BEDROCK_MODEL_ID".toList
  { method := "POST".toList
    url := "https://bedrock-runtime.us-east-1.amazonaws.com/model/".toList ++ modelID ++
      "/invoke".toList
    authorization := "Bearer ".toList ++ apiKey
    contentType := "application/json".toList
    payload :=
      { anthropic_version := "bedrock-2023-05-31".toList
        messages :=
          [{ role := "user".toList
             content := fullPrompt (getFriendlyOS w) w.goarch prompt }]
        max_tokens := 300 } }

/-- Lines 87-98: the request is made and sent and the body read.  The value
`none` is the nil request of an URL that does not parse, which line 88
dereferences. -/
def sendRequest (w : World) (req : Request) : Option (Except GoString Response) :=
  if w.urlParses req.url then some (w.httpDo req) else none

/-- Ask AI using Bearer token + Bedrock HTTP API. -/
def askAI (w : World) (verbose : Bool) (prompt : GoString) : AskResult :=
  let apiKey := w.getenv "AWS_BEARER_TOKEN_BEDROCK".toList
  if apiKey = [] then ⟨[], some .missingCredential, [], false⟩
  else
    let req := buildRequest w apiKey prompt
    match sendRequest w req with
    | none => ⟨[], some .nilRequest, [], true⟩
    | some (.error e) => ⟨[], some (.transport e), [.http req], false⟩
    | some (.ok resp) =>
      if resp.statusCode ≠ 200 then ⟨[], some (.api resp.body), [.http req], false⟩
      else
        let shown : List Event :=
          if verbose then [.print (.rawResponse resp.body)] else []
        match w.unmarshal resp.body with
        | .error e => ⟨[], some (.json e), .http req :: shown, false⟩
        | .ok result =>
          match extractText result with
          | some text => ⟨trimSpace text, none, .http req :: shown, false⟩
          | none => ⟨[], some (.unexpectedFormat result), .http req :: shown, false⟩

/-! ## `main` (lines 150-233) -/

/-- The three package-level variables `unsafeMode`, `aiMode`, `verbose`. -/
structure Flags where
  unsafeMode : Bool
  aiMode : Bool
  verbose : Bool
deriving DecidableEq

/-- How the flag loop of lines 154-172 ends. -/
inductive Startup where
  /-- Help printed, `return`. -/
  | help : Startup
  /-- Version line printed, `return`. -/
  | version : Startup
  /-- The loop over `args` ran to its end with these flag values. -/
  | enter (f : Flags) : Startup
deriving DecidableEq

/-- Lines 154-172, from the flag values reached so far: the outcome and the
messages printed. -/
def handleFlags : List GoString → Flags → Startup × List Event
  | [], f => (.enter f, [])
  | arg :: args, f =>
    if arg = "--help".toList ∨ arg = "-h".toList then (.help, [.print .help])
    else if arg = "--version".toList ∨ arg = "-v".toList then (.version, [.print .version])
    else if arg = "--unsafe".toList then
      ((handleFlags args { f with unsafeMode := true }).1,
        .print .unsafeEnabled :: (handleFlags args { f with unsafeMode := true }).2)
    else if arg = "--ai".toList then
      ((handleFlags args { f with aiMode := true }).1,
        .print .aiEnabled :: (handleFlags args { f with aiMode := true }).2)
    else if arg = "--verbose".toList then
      ((handleFlags args { f with verbose := true }).1,
        .print .verboseEnabled :: (handleFlags args { f with verbose := true }).2)
    else handleFlags args f

/-- The flag loop from the initial values of lines 24-26. -/
def parseArgs (args : List GoString) : Startup :=
  (handleFlags args ⟨false, false, false⟩).1

/-- Where the interactive loop stands. -/
inductive Status where
  /-- The spec's Prompting: the next pass follows. -/
  | running : Status
  /-- The spec's Terminated: the `break` of line 194 was reached. -/
  | exited : Status
  /-- The program died of the panic of line 88. -/
  | panicked : Status
  /-- The program was ended by the command it was running. -/
  | killed : Status
deriving DecidableEq

/-- The result of running (part of) the interactive loop. -/
structure LoopResult where
  events : List Event
  /-- The input not read yet. -/
  stdin : GoString
  status : Status

/-- Lines 217-231: the safety filter, then `bash -c command`; `rest` is the
input unread at that point. -/
def filterAndRun (f : Flags) (w : World) (command rest : GoString) : LoopResult :=
  if safetyFilter f.unsafeMode command then
    ⟨[.gate command false, .print .rmNotAllowed], rest, .running⟩
  else if (w.run command rest).killed then
    ⟨[.gate command true, .exec command], (w.run command rest).unread, .killed⟩
  else
    match (w.run command rest).err with
    | none => ⟨[.gate command true, .exec command], (w.run command rest).unread, .running⟩
    | some e =>
      ⟨[.gate command true, .exec command, .print (.commandFailed e)],
        (w.run command rest).unread, .running⟩

/-- One pass through the body of the `for` of lines 187-232. -/
def iteration (f : Flags) (w : World) (stdin : GoString) : LoopResult :=
  let line := readString '\n' stdin
  let input := trimSpace line.1
  if input = "exit".toList then
    ⟨[.print .prompt, .print .goodbye], line.2, .exited⟩
  else if f.aiMode then
    let a := askAI w f.verbose input
    if a.panicked then
      ⟨.print .prompt :: .askAI input :: a.events, line.2, .panicked⟩
    else
      match a.err with
      | some e =>
        ⟨.print .prompt :: .askAI input :: a.events ++ [.print (.aiError e)], line.2,
          .running⟩
      | none =>
        let line2 := readString '\n' line.2
        let confirm := trimSpace line2.1
        let shown : List Event :=
          .print .prompt :: .askAI input :: a.events ++
            [.print (.suggested a.text), .print .runThis]
        if confirm ≠ "y".toList then ⟨shown ++ [.print .skipped], line2.2, .running⟩
        else
          ⟨shown ++ (filterAndRun f w a.text line2.2).events,
            (filterAndRun f w a.text line2.2).stdin, (filterAndRun f w a.text line2.2).status⟩
  else
    ⟨.print .prompt :: (filterAndRun f w input line.2).events,
      (filterAndRun f w input line.2).stdin, (filterAndRun f w input line.2).status⟩

/-- The `for` of lines 187-232, at most `fuel` passes, pass number `i` first;
`w i` is the world the `i`-th pass meets. -/
def loop (f : Flags) (w : Nat → World) : Nat → Nat → GoString → LoopResult
  | 0, _, stdin => ⟨[], stdin, .running⟩
  | fuel + 1, i, stdin =>
    let r := iteration f (w i) stdin
    match r.status with
    | .running =>
      let r' := loop f w fuel (i + 1) r.stdin
      ⟨r.events ++ r'.events, r'.stdin, r'.status⟩
    | _ => r

/-- The banner of lines 174-183. -/
def banner (f : Flags) : List Event :=
  [.print .welcome, .print (if f.unsafeMode then .runningUnsafe else .runningSafe)] ++
    (if f.aiMode then [.print .aiModeOn] else []) ++ [.print .typeYourCommand]

/-- The whole of `main`, the interactive loop cut after `fuel` passes. -/
def main (w : Nat → World) (args : List GoString) (stdin : GoString) (fuel : Nat) :
    LoopResult :=
  match handleFlags args ⟨false, false, false⟩ with
  | (.enter f, ev) =>
    let r := loop f w fuel 0 stdin
    ⟨ev ++ banner f ++ r.events, r.stdin, r.status⟩
  | (_, ev) => ⟨ev, stdin, .exited⟩

/-! ## Vocabulary of the statements -/

/-- The lines of an input stream as successive `ReadString('\n')` calls
return them: each ends with its newline, except a last one cut by the end of
the stream. -/
def inputLines : GoString → List GoString
  | [] => []
  | c :: s =>
    if c = '\n' then [c] :: inputLines s
    else
      match inputLines s with
      | [] => [[c]]
      | l :: ls => (c :: l) :: ls

/-- The commands of this world leave the loop alone: they read nothing from
the shared standard input and do not end the program. -/
def World.handsOff (w : World) : Prop :=
  ∀ c rest, (w.run c rest).unread = rest ∧ (w.run c rest).killed = false

/-- The labels of the first `case` of the `switch`, line 156. -/
abbrev isHelpFlag (arg : GoString) : Prop :=
  arg = "--help".toList ∨ arg = "-h".toList

/-- The labels of the second `case` of the `switch`, line 159. -/
abbrev isVersionFlag (arg : GoString) : Prop :=
  arg = "--version".toList ∨ arg = "-v".toList

/-- The arguments the `switch` of lines 155-171 has a case for. -/
def knownFlags : List GoString :=
  ["--help".toList, "-h".toList, "--version".toList, "-v".toList, "--unsafe".toList,
    "--ai".toList, "--verbose".toList]

/-! ## Concrete worlds -/

/-- A Linux machine with no credential set, no network, and a `bash` whose
commands always succeed and read nothing from standard input. -/
def offlineWorld : World where
  getenv := fun _ => []
  goos := "linux".toList
  goarch := "amd64".toList
  readFile := fun _ => none
  urlParses := fun _ => true
  httpDo := fun _ => .error "dial tcp: no route to host".toList
  unmarshal := fun _ => .error "unexpected end of JSON input".toList
  run := fun _ rest => ⟨none, rest, false⟩

/-- The body the endpoint of `echoWorld` answers with. -/
def echoBody : GoString :=
  "\x7b\"content\":[\x7b\"type\":\"text\",\"text\":\" echo hi\\n\"\x7d]\x7d".toList

/-- The value of `echoBody` as `json.Unmarshal` decodes it. -/
def echoObject : JObject :=
  [("content".toList,
    .arr [.obj [("type".toList, .str "text".toList), ("text".toList, .str " echo hi\n".toList)]])]

/-- A macOS machine with a credential and the default model, whose endpoint
answers every request with status 200 and `echoBody`, and whose commands
always succeed and read nothing from standard input. -/
def echoWorld : World where
  getenv := fun name => if name = "AWS_BEARER_TOKEN_BEDROCK".toList then "token".toList else []
  goos := "darwin".toList
  goarch := "arm64".toList
  readFile := fun _ => none
  urlParses := fun _ => true
  httpDo := fun _ => .ok ⟨200, echoBody⟩
  unmarshal := fun b =>
    if b = echoBody then .ok echoObject else .error "invalid character".toList
  run := fun _ rest => ⟨none, rest, false⟩

/-- As `echoWorld`, but the endpoint answers with a `content` array that is
empty. -/
def emptyContentWorld : World :=
  { echoWorld with unmarshal := fun _ => .ok [("content".toList, .arr [])] }

/-- As `echoWorld`, but with `BEDROCK_MODEL_ID=%zz`: the URL of line 63 then
holds the invalid escape `%zz` and does not parse. -/
def badModelWorld : World :=
  { echoWorld with
    getenv := fun name =>
      if name = "AWS_BEARER_TOKEN_BEDROCK".toList then "token".toList
      else if name = "BEDROCK_MODEL_ID".toList then "%zz".toList
      else []
    urlParses := fun url =>
      decide (url ≠
        "https://bedrock-runtime.us-east-1.amazonaws.com/model/%zz/invoke".toList) }

/-- As `offlineWorld`, but every command reads standard input to its end,
as `cat` does. -/
def greedyWorld : World :=
  { offlineWorld with run := fun _ _ => ⟨none, [], false⟩ }

/-- As `offlineWorld`, but the command `kill $PPID` does what it says. -/
def hostileWorld : World :=
  { offlineWorld with
    run := fun c rest => ⟨none, rest, decide (c = "kill $PPID".toList)⟩ }

/-! ## Lemmas on the string functions -/

theorem hasPrefix_iff (s p : GoString) :
    hasPrefix s p = true ↔ ∃ t, s = p ++ t := by
  induction p generalizing s with
  | nil => cases s <;> simp [hasPrefix]
  | cons a p ih =>
    cases s with
    | nil => simp [hasPrefix]
    | cons c s =>
      simp only [hasPrefix, Bool.and_eq_true, beq_iff_eq, ih, List.cons_append,
        List.cons.injEq]
      constructor
      · rintro ⟨rfl, t, rfl⟩
        exact ⟨t, rfl, rfl⟩
      · rintro ⟨t, rfl, rfl⟩
        exact ⟨rfl, t, rfl⟩

theorem contains_iff (s substr : GoString) :
    contains s substr = true ↔ ∃ a b, s = a ++ substr ++ b := by
  induction s with
  | nil =>
    simp only [contains, hasPrefix_iff]
    constructor
    · rintro ⟨t, h⟩
      exact ⟨[], t, by simpa using h⟩
    · rintro ⟨a, b, h⟩
      have h1 : a = [] ∧ substr = [] ∧ b = [] := by simpa [eq_comm] using h
      exact ⟨[], by simp [h1.2.1]⟩
  | cons c s ih =>
    simp only [contains, Bool.or_eq_true, hasPrefix_iff, ih]
    constructor
    · rintro (⟨t, h⟩ | ⟨a, b, h⟩)
      · exact ⟨[], t, by simpa using h⟩
      · exact ⟨c :: a, b, by simp [h]⟩
    · rintro ⟨a, b, h⟩
      cases a with
      | nil => exact Or.inl ⟨b, by simpa using h⟩
      | cons x a =>
        simp only [List.cons_append, List.cons.injEq] at h
        exact Or.inr ⟨a, b, h.2⟩

theorem trimRightFunc_append (f : Char → Bool) (s : GoString) :
    ∃ r, s = trimRightFunc f s ++ r ∧ ∀ c ∈ r, f c = true := by
  refine ⟨(s.reverse.takeWhile f).reverse, ?_, ?_⟩
  · have h := congrArg List.reverse (List.takeWhile_append_dropWhile f s.reverse)
    rw [List.reverse_append, List.reverse_reverse] at h
    exact h.symm
  · intro c hc
    exact List.mem_takeWhile_imp (List.mem_reverse.1 hc)

theorem trimRightFunc_getLast? (f : Char → Bool) (s : GoString) (c : Char)
    (h : (trimRightFunc f s).getLast? = some c) : f c = false := by
  unfold trimRightFunc at h
  rw [List.getLast?_reverse] at h
  have := List.head?_dropWhile_not f s.reverse
  rw [h] at this
  simpa using this

theorem trimSpace_decomp (s : GoString) :
    ∃ l r, s = l ++ trimSpace s ++ r ∧ (∀ c ∈ l, isSpace c = true) ∧
      ∀ c ∈ r, isSpace c = true := by
  obtain ⟨r, hr, hsp⟩ := trimRightFunc_append isSpace (trimLeftFunc isSpace s)
  refine ⟨s.takeWhile isSpace, r, ?_, fun c hc => List.mem_takeWhile_imp hc, hsp⟩
  unfold trimSpace
  rw [List.append_assoc, ← hr]
  exact (List.takeWhile_append_dropWhile isSpace s).symm

theorem trimSpace_getLast? (s : GoString) (c : Char)
    (h : (trimSpace s).getLast? = some c) : isSpace c = false :=
  trimRightFunc_getLast? isSpace _ c h

theorem trimSpace_head? (s : GoString) (c : Char)
    (h : (trimSpace s).head? = some c) : isSpace c = false := by
  obtain ⟨r, hr, -⟩ := trimRightFunc_append isSpace (trimLeftFunc isSpace s)
  have h1 : (trimLeftFunc isSpace s).head? = some c := by
    rw [hr]
    change (trimSpace s ++ r).head? = some c
    cases ht : trimSpace s with
    | nil => rw [ht] at h; simp at h
    | cons a t => rw [ht] at h; simpa using h
  have := List.head?_dropWhile_not isSpace s
  unfold trimLeftFunc at h1
  rw [h1] at this
  simpa using this

/-! ## The safety filter -/

/-- C1: the Safety Gate allows a command exactly when unsafe mode is on or
the command is none of: the word `rm`, a text starting with `rm` and a space,
a text containing `rm` between two spaces.  In unsafe mode every command is
allowed. -/
theorem isAllowed_iff_not_rm :
    (∀ (c : GoString) (unsafeMode : Bool),
      isAllowed c unsafeMode = true ↔
        (unsafeMode = true ∨
          ¬ (c = "rm".toList ∨ (∃ t, c = "rm ".toList ++ t) ∨
              ∃ a b, c = a ++ " rm ".toList ++ b))) ∧
    ∀ c : GoString, isAllowed c true = true := by
  constructor
  · intro c unsafeMode
    have hp := hasPrefix_iff c "rm ".toList
    have hc := contains_iff c " rm ".toList
    cases unsafeMode with
    | true => simp [isAllowed, safetyFilter]
    | false =>
      simp only [isAllowed, safetyFilter, Bool.not_false, Bool.true_and, Bool.not_eq_true',
        Bool.or_eq_false_iff, beq_eq_false_iff_ne, ne_eq, Bool.false_eq_true, false_or,
        not_or, ← hp, ← hc, Bool.not_eq_true]
      tauto
  · intro c
    simp [isAllowed, safetyFilter]

/-- C10: the filter is lexical and lets these through in safe mode: `rm`
called by its path, `rm` as the last word after `&&`, `rm` right after a
semicolon, and `rm` at the start of the second line of a script. -/
theorem isAllowed_gaps :
    isAllowed "/bin/rm -rf /tmp/x".toList false = true ∧
    isAllowed "ls && rm".toList false = true ∧
    isAllowed "ls;rm -rf /tmp/x".toList false = true ∧
    isAllowed "cd /tmp\nrm -rf x".toList false = true := by
  decide

/-! ## The Prompt Builder -/

/-- C6: the prompt is the system-info line, then the user text, then the
fixed directive; so the user text occurs in it unchanged, whatever it is.
This prompt, built from the probed OS label and architecture, is the content
of the one message of the request `askAI` sends. -/
theorem fullPrompt_structure (osFriendly arch u : GoString) :
    fullPrompt osFriendly arch u =
      ("System Info: OS=".toList ++ osFriendly ++ " Arch=".toList ++ arch ++ "\n".toList) ++ u ++
        ("\nRespond only with the shell command(s).\n" ++
          "If multiple commands are needed, return them as a multi-line script.\n" ++
          "Do NOT include explanations.").toList ∧
    (∃ before after, fullPrompt osFriendly arch u = before ++ u ++ after) ∧
    contains (fullPrompt osFriendly arch u) u = true ∧
    ∀ (w : World) (apiKey : GoString),
      (buildRequest w apiKey u).payload.messages =
        [⟨"user".toList, fullPrompt (getFriendlyOS w) w.goarch u⟩] := by
  have h : fullPrompt osFriendly arch u = systemInfo osFriendly arch ++ u ++ directive := rfl
  refine ⟨?_, ⟨_, _, h⟩, (contains_iff _ _).2 ⟨_, _, h⟩, fun _ _ => rfl⟩
  rw [h]
  have hd : directive = ("\nRespond only with the shell command(s).\n" ++
          "If multiple commands are needed, return them as a multi-line script.\n" ++
          "Do NOT include explanations.").toList := by decide
  rw [hd]
  rfl

/-! ## The Inference Client -/

theorem extractText_eq_some (result : JObject) (text : GoString) :
    extractText result = some text ↔
      ∃ first rest fields, result.get "content".toList = some (.arr (first :: rest)) ∧
        first = .obj fields ∧ JObject.get fields "text".toList = some (.str text) := by
  unfold extractText
  constructor
  · intro h
    split at h
    · rename_i first rest hc
      split at h
      · rename_i fields
        split at h
        · rename_i t ht
          cases h
          exact ⟨_, rest, fields, hc, rfl, ht⟩
        · cases h
      · cases h
    · cases h
  · rintro ⟨first, rest, fields, hc, rfl, ht⟩
    simp only [hc, ht]

theorem askAI_of_parsed (w : World) (verbose : Bool) (prompt body : GoString)
    (result : JObject)
    (hkey : w.getenv "AWS_BEARER_TOKEN_BEDROCK".toList ≠ [])
    (hhttp : sendRequest w
        (buildRequest w (w.getenv "AWS_BEARER_TOKEN_BEDROCK".toList) prompt) =
      some (.ok ⟨200, body⟩))
    (hjson : w.unmarshal body = .ok result) :
    ((askAI w verbose prompt).text, (askAI w verbose prompt).err) =
      match extractText result with
      | some text => (trimSpace text, none)
      | none => ([], some (.unexpectedFormat result)) := by
  unfold askAI
  simp only [hkey, if_false, hhttp, ne_eq, not_true_eq_false, hjson]
  split <;> rfl

theorem askAI_panicked_iff (w : World) (verbose : Bool) (prompt : GoString) :
    (askAI w verbose prompt).panicked = true ↔
      w.getenv "AWS_BEARER_TOKEN_BEDROCK".toList ≠ [] ∧
      w.urlParses
        (buildRequest w (w.getenv "AWS_BEARER_TOKEN_BEDROCK".toList) prompt).url = false := by
  unfold askAI sendRequest
  by_cases hkey : w.getenv "AWS_BEARER_TOKEN_BEDROCK".toList = []
  · simp only [hkey, if_true, Bool.false_eq_true, ne_eq, not_true_eq_false, false_and]
  · cases hurl : w.urlParses
        (buildRequest w (w.getenv "AWS_BEARER_TOKEN_BEDROCK".toList) prompt).url with
    | false => simp only [hkey, if_false, hurl, Bool.false_eq_true, ne_eq, not_false_eq_true,
        and_self]
    | true =>
      simp only [hkey, if_false, hurl, if_true, ne_eq, not_false_eq_true, Bool.true_eq_false,
        and_false, iff_false, Bool.not_eq_true]
      repeat' split
      all_goals first
        | rfl
        | (rename_i heq
           cases heq)

theorem askAI_of_panicked (w : World) (verbose : Bool) (prompt : GoString)
    (h : (askAI w verbose prompt).panicked = true) :
    (askAI w verbose prompt).err = some .nilRequest ∧
    (askAI w verbose prompt).events = [] := by
  have hp := (askAI_panicked_iff w verbose prompt).1 h
  unfold askAI sendRequest
  simp only [hp.1, if_false, hp.2, Bool.false_eq_true, and_self]

/-- C4: without a credential (`AWS_BEARER_TOKEN_BEDROCK` unset or empty, for
which `os.Getenv` gives the empty string) `askAI` returns the empty text and
the missing-credential error and does nothing else, in particular sends no
request, whatever the prompt, the other variables and the verbose flag. -/
theorem askAI_missing_credential (w : World) (verbose : Bool) (prompt : GoString)
    (h : w.getenv "AWS_BEARER_TOKEN_BEDROCK".toList = []) :
    (askAI w verbose prompt).text = [] ∧
    (askAI w verbose prompt).err = some .missingCredential ∧
    (askAI w verbose prompt).events = [] ∧
    requests (askAI w verbose prompt).events = [] := by
  unfold askAI
  simp only [h, if_true, requests, and_self]

/-- C4 at `offlineWorld`, verbose on, prompt `list files`. -/
theorem askAI_missing_credential_witness :
    offlineWorld.getenv "AWS_BEARER_TOKEN_BEDROCK".toList = [] ∧
    (askAI offlineWorld true "list files".toList).text = [] ∧
    (askAI offlineWorld true "list files".toList).err = some .missingCredential ∧
    (askAI offlineWorld true "list files".toList).events = [] ∧
    requests (askAI offlineWorld true "list files".toList).events = [] :=
  ⟨rfl, askAI_missing_credential offlineWorld true "list files".toList rfl⟩

/-- C5: when the request was sent, the endpoint answered with status 200 and
the body parsed to the JSON object `result`, `askAI` succeeds exactly when `result["content"]` is a
non-empty array whose first element is an object whose `"text"` is a string;
it then returns that string trimmed, which neither starts nor ends with white
space and differs from the string only by white space at both ends; in every
other case it returns the empty text and the unexpected-format error carrying
`result`. -/
theorem askAI_extracts_text (w : World) (verbose : Bool) (prompt body : GoString)
    (result : JObject)
    (hkey : w.getenv "AWS_BEARER_TOKEN_BEDROCK".toList ≠ [])
    (hhttp : sendRequest w
        (buildRequest w (w.getenv "AWS_BEARER_TOKEN_BEDROCK".toList) prompt) =
      some (.ok ⟨200, body⟩))
    (hjson : w.unmarshal body = .ok result) :
    ((askAI w verbose prompt).err = none ↔
      ∃ first rest fields text, result.get "content".toList = some (.arr (first :: rest)) ∧
        first = .obj fields ∧ JObject.get fields "text".toList = some (.str text)) ∧
    (∀ first rest fields text, result.get "content".toList = some (.arr (first :: rest)) →
        first = .obj fields → JObject.get fields "text".toList = some (.str text) →
        (askAI w verbose prompt).err = none ∧
        (askAI w verbose prompt).text = trimSpace text ∧
        (∃ l r, text = l ++ (askAI w verbose prompt).text ++ r ∧
          (∀ c ∈ l, isSpace c = true) ∧ ∀ c ∈ r, isSpace c = true) ∧
        (∀ c, (askAI w verbose prompt).text.head? = some c → isSpace c = false) ∧
        ∀ c, (askAI w verbose prompt).text.getLast? = some c → isSpace c = false) ∧
    ((¬ ∃ first rest fields text, result.get "content".toList = some (.arr (first :: rest)) ∧
        first = .obj fields ∧ JObject.get fields "text".toList = some (.str text)) →
      (askAI w verbose prompt).err = some (.unexpectedFormat result) ∧
      (askAI w verbose prompt).text = []) := by
  have h := askAI_of_parsed w verbose prompt body result hkey hhttp hjson
  cases hx : extractText result with
  | none =>
    rw [hx] at h
    have hno : ∀ text, ¬ ∃ first rest fields,
        result.get "content".toList = some (.arr (first :: rest)) ∧
        first = .obj fields ∧ JObject.get fields "text".toList = some (.str text) := by
      intro text hex
      have := (extractText_eq_some result text).2 hex
      rw [hx] at this
      cases this
    simp only [Prod.mk.injEq] at h
    refine ⟨?_, ?_, fun _ => ⟨h.2, h.1⟩⟩
    · rw [h.2]
      constructor
      · intro hcontra
        cases hcontra
      · rintro ⟨first, rest, fields, text, hh⟩
        exact absurd ⟨first, rest, fields, hh⟩ (hno text)
    · intro first rest fields text h1 h2 h3
      exact absurd ⟨first, rest, fields, h1, h2, h3⟩ (hno text)
  | some t =>
    rw [hx] at h
    simp only [Prod.mk.injEq] at h
    obtain ⟨first0, rest0, fields0, hc0, hf0, ht0⟩ := (extractText_eq_some result t).1 hx
    refine ⟨⟨fun _ => ⟨first0, rest0, fields0, t, hc0, hf0, ht0⟩, fun _ => h.2⟩, ?_, ?_⟩
    · intro first rest fields text h1 h2 h3
      have hsome := (extractText_eq_some result text).2 ⟨first, rest, fields, h1, h2, h3⟩
      rw [hx] at hsome
      cases hsome
      rw [h.1]
      exact ⟨h.2, rfl, trimSpace_decomp t, trimSpace_head? t, trimSpace_getLast? t⟩
    · intro hnot
      exact absurd ⟨first0, rest0, fields0, t, hc0, hf0, ht0⟩ hnot

/-- C5 at `echoWorld`, where the text `" echo hi\n"` comes back as `echo hi`,
and at `emptyContentWorld`, where the `content` array has no first element. -/
theorem askAI_extracts_text_witness :
    ((askAI echoWorld false "say hi".toList).err = none ∧
      (askAI echoWorld false "say hi".toList).text = "echo hi".toList) ∧
    (askAI emptyContentWorld false "say hi".toList).err =
        some (.unexpectedFormat [("content".toList, .arr [])]) ∧
    (askAI emptyContentWorld false "say hi".toList).text = [] :=
  have h := askAI_extracts_text echoWorld false "say hi".toList echoBody echoObject
    (by decide) rfl rfl
  have h2 := h.2.1 _ _ _ _ rfl rfl rfl
  have h3 := askAI_extracts_text emptyContentWorld false "say hi".toList echoBody
    [("content".toList, .arr [])] (by decide) rfl rfl
  ⟨⟨h2.1, h2.2.1.trans (by decide)⟩,
    h3.2.2 (by
      rintro ⟨first, rest, fields, text, hc, -⟩
      have hget : JObject.get [("content".toList, JVal.arr [])] "content".toList =
          some (.arr []) := rfl
      rw [hget] at hc
      cases hc)⟩

/-! ## Reading traces -/

theorem executed_append (xs ys : List Event) :
    executed (xs ++ ys) = executed xs ++ executed ys := by
  induction xs with
  | nil => rfl
  | cons e xs ih => cases e <;> simp [executed, ih]

theorem gated_append (xs ys : List Event) : gated (xs ++ ys) = gated xs ++ gated ys := by
  induction xs with
  | nil => rfl
  | cons e xs ih => cases e <;> simp [gated, ih]

theorem aiCalls_append (xs ys : List Event) :
    aiCalls (xs ++ ys) = aiCalls xs ++ aiCalls ys := by
  induction xs with
  | nil => rfl
  | cons e xs ih => cases e <;> simp [aiCalls, ih]

theorem prompts_append (xs ys : List Event) :
    prompts (xs ++ ys) = prompts xs + prompts ys := by
  induction xs with
  | nil => simp [prompts]
  | cons e xs ih =>
    cases e with
    | print m => cases m <;> simp [prompts, ih] <;> omega
    | _ => simp [prompts, ih]

theorem askAI_events_quiet (w : World) (verbose : Bool) (prompt : GoString) :
    executed (askAI w verbose prompt).events = [] ∧
    gated (askAI w verbose prompt).events = [] ∧
    aiCalls (askAI w verbose prompt).events = [] := by
  unfold askAI
  cases verbose <;>
  · simp only []
    repeat' split
    all_goals exact ⟨rfl, rfl, rfl⟩

theorem filterAndRun_allowed (f : Flags) (w : World) (c rest : GoString)
    (h : isAllowed c f.unsafeMode = true) :
    ∃ tail, (filterAndRun f w c rest).events = [.gate c true, .exec c] ++ tail ∧
      executed tail = [] ∧ gated tail = [] ∧ aiCalls tail = [] := by
  have hs : safetyFilter f.unsafeMode c = false := by simpa [isAllowed] using h
  unfold filterAndRun
  rw [hs]
  simp only [Bool.false_eq_true, if_false]
  cases (w.run c rest).killed with
  | true => exact ⟨[], rfl, rfl, rfl, rfl⟩
  | false =>
    simp only [Bool.false_eq_true, if_false]
    cases (w.run c rest).err with
    | none => exact ⟨[], rfl, rfl, rfl, rfl⟩
    | some e => exact ⟨[.print (.commandFailed e)], rfl, rfl, rfl, rfl⟩

theorem filterAndRun_denied (f : Flags) (w : World) (c rest : GoString)
    (h : isAllowed c f.unsafeMode = false) :
    filterAndRun f w c rest = ⟨[.gate c false, .print .rmNotAllowed], rest, .running⟩ := by
  have hs : safetyFilter f.unsafeMode c = true := by simpa [isAllowed] using h
  unfold filterAndRun
  rw [hs]
  rfl

theorem filterAndRun_status (f : Flags) (w : World) (c rest : GoString) :
    (filterAndRun f w c rest).status ≠ .exited ∧
    (filterAndRun f w c rest).status ≠ .panicked := by
  unfold filterAndRun
  repeat' split
  all_goals exact ⟨fun h => Status.noConfusion h, fun h => Status.noConfusion h⟩

theorem filterAndRun_handsOff (f : Flags) (w : World) (c rest : GoString)
    (hw : w.handsOff) :
    (filterAndRun f w c rest).stdin = rest ∧ (filterAndRun f w c rest).status = .running := by
  obtain ⟨h1, h2⟩ := hw c rest
  unfold filterAndRun
  simp only [h1, h2, Bool.false_eq_true, if_false]
  repeat' split
  all_goals exact ⟨rfl, rfl⟩

theorem executed_filterAndRun (f : Flags) (w : World) (c rest : GoString) :
    executed (filterAndRun f w c rest).events =
      if isAllowed c f.unsafeMode = true then [c] else [] := by
  cases h : isAllowed c f.unsafeMode with
  | true =>
    obtain ⟨tail, ht, he, -, -⟩ := filterAndRun_allowed f w c rest h
    rw [ht, executed_append, he]
    rfl
  | false =>
    rw [filterAndRun_denied f w c rest h]
    rfl

theorem iteration_exit (f : Flags) (w : World) (stdin : GoString)
    (he : trimSpace (readString '\n' stdin).1 = "exit".toList) :
    iteration f w stdin =
      ⟨[.print .prompt, .print .goodbye], (readString '\n' stdin).2, .exited⟩ := by
  unfold iteration
  simp only [if_pos he]

theorem iteration_direct (f : Flags) (w : World) (stdin : GoString)
    (hai : f.aiMode = false)
    (hne : trimSpace (readString '\n' stdin).1 ≠ "exit".toList) :
    iteration f w stdin =
      ⟨.print .prompt ::
          (filterAndRun f w (trimSpace (readString '\n' stdin).1)
            (readString '\n' stdin).2).events,
        (filterAndRun f w (trimSpace (readString '\n' stdin).1) (readString '\n' stdin).2).stdin,
        (filterAndRun f w (trimSpace (readString '\n' stdin).1)
          (readString '\n' stdin).2).status⟩ := by
  unfold iteration
  simp only [if_neg hne, hai, Bool.false_eq_true, if_false]

theorem iteration_ai_panic (f : Flags) (w : World) (stdin : GoString)
    (hai : f.aiMode = true)
    (hne : trimSpace (readString '\n' stdin).1 ≠ "exit".toList)
    (hp : (askAI w f.verbose (trimSpace (readString '\n' stdin).1)).panicked = true) :
    iteration f w stdin =
      ⟨[.print .prompt, .askAI (trimSpace (readString '\n' stdin).1)],
        (readString '\n' stdin).2, .panicked⟩ := by
  have hev := (askAI_of_panicked w f.verbose _ hp).2
  unfold iteration
  simp only [if_neg hne, hai, if_true, hp, hev]

theorem iteration_ai_error (f : Flags) (w : World) (stdin : GoString) (e : Error)
    (hai : f.aiMode = true)
    (hne : trimSpace (readString '\n' stdin).1 ≠ "exit".toList)
    (hp : (askAI w f.verbose (trimSpace (readString '\n' stdin).1)).panicked = false)
    (herr : (askAI w f.verbose (trimSpace (readString '\n' stdin).1)).err = some e) :
    iteration f w stdin =
      ⟨.print .prompt :: .askAI (trimSpace (readString '\n' stdin).1) ::
          (askAI w f.verbose (trimSpace (readString '\n' stdin).1)).events ++
            [.print (.aiError e)],
        (readString '\n' stdin).2, .running⟩ := by
  unfold iteration
  simp only [if_neg hne, hai, if_true, hp, Bool.false_eq_true, if_false]
  split
  · rename_i e' he'
    rw [herr] at he'
    cases he'
    rfl
  · rename_i hnone
    rw [herr] at hnone
    cases hnone

theorem askAI_ok_not_panicked (w : World) (verbose : Bool) (prompt : GoString)
    (herr : (askAI w verbose prompt).err = none) :
    (askAI w verbose prompt).panicked = false := by
  cases hp : (askAI w verbose prompt).panicked with
  | false => rfl
  | true =>
    rw [(askAI_of_panicked w verbose prompt hp).1] at herr
    cases herr

theorem iteration_ai_ok (f : Flags) (w : World) (stdin : GoString)
    (hai : f.aiMode = true)
    (hne : trimSpace (readString '\n' stdin).1 ≠ "exit".toList)
    (herr : (askAI w f.verbose (trimSpace (readString '\n' stdin).1)).err = none) :
    iteration f w stdin =
      ⟨(.print .prompt :: .askAI (trimSpace (readString '\n' stdin).1) ::
          (askAI w f.verbose (trimSpace (readString '\n' stdin).1)).events ++
            [.print (.suggested (askAI w f.verbose (trimSpace (readString '\n' stdin).1)).text),
              .print .runThis]) ++
          (if trimSpace (readString '\n' (readString '\n' stdin).2).1 ≠ "y".toList then
            [.print .skipped]
          else
            (filterAndRun f w (askAI w f.verbose (trimSpace (readString '\n' stdin).1)).text
              (readString '\n' (readString '\n' stdin).2).2).events),
        (if trimSpace (readString '\n' (readString '\n' stdin).2).1 ≠ "y".toList then
            (readString '\n' (readString '\n' stdin).2).2
          else
            (filterAndRun f w (askAI w f.verbose (trimSpace (readString '\n' stdin).1)).text
              (readString '\n' (readString '\n' stdin).2).2).stdin),
        (if trimSpace (readString '\n' (readString '\n' stdin).2).1 ≠ "y".toList then
            .running
          else
            (filterAndRun f w (askAI w f.verbose (trimSpace (readString '\n' stdin).1)).text
              (readString '\n' (readString '\n' stdin).2).2).status)⟩ := by
  have hp := askAI_ok_not_panicked w f.verbose _ herr
  unfold iteration
  simp only [if_neg hne, hai, if_true, hp, Bool.false_eq_true, if_false]
  split
  · rename_i e' he'
    rw [herr] at he'
    cases he'
  · split <;> rfl

/-! ## The interactive loop, one pass -/

/-- C2: in direct mode an input line whose trimmed form `t` is not `exit`
makes one pass of the loop evaluate the safety filter exactly once, on `t`,
without calling `askAI`; when the filter allows `t` the pass runs exactly one
command, `t`, right after the filter; when it denies `t` the pass runs nothing
and prints the block message.  So whatever is run was allowed. -/
theorem direct_pass_gates_then_runs (f : Flags) (w : World) (stdin : GoString)
    (hai : f.aiMode = false)
    (hne : trimSpace (readString '\n' stdin).1 ≠ "exit".toList) :
    gated (iteration f w stdin).events = [trimSpace (readString '\n' stdin).1] ∧
    aiCalls (iteration f w stdin).events = [] ∧
    (isAllowed (trimSpace (readString '\n' stdin).1) f.unsafeMode = true →
      executed (iteration f w stdin).events = [trimSpace (readString '\n' stdin).1] ∧
      ∃ tail, (iteration f w stdin).events =
        [.print .prompt, .gate (trimSpace (readString '\n' stdin).1) true,
          .exec (trimSpace (readString '\n' stdin).1)] ++ tail) ∧
    (isAllowed (trimSpace (readString '\n' stdin).1) f.unsafeMode = false →
      executed (iteration f w stdin).events = [] ∧
      (iteration f w stdin).events =
        [.print .prompt, .gate (trimSpace (readString '\n' stdin).1) false,
          .print .rmNotAllowed]) ∧
    ∀ c ∈ executed (iteration f w stdin).events, isAllowed c f.unsafeMode = true := by
  rw [iteration_direct f w stdin hai hne]
  generalize trimSpace (readString '\n' stdin).1 = t
  generalize (readString '\n' stdin).2 = rest
  cases hallow : isAllowed t f.unsafeMode with
  | true =>
    obtain ⟨tail, ht, he, hg, ha⟩ := filterAndRun_allowed f w t rest hallow
    simp only [ht]
    refine ⟨?_, ?_, ?_, ?_, ?_⟩
    · simp [gated, hg]
    · simp [aiCalls, ha]
    · intro _
      exact ⟨by simp [executed, he], tail, rfl⟩
    · intro hc
      cases hc
    · intro c hc
      have : c = t := by simpa [executed, he] using hc
      rw [this]
      exact hallow
  | false =>
    rw [filterAndRun_denied f w t rest hallow]
    refine ⟨rfl, rfl, ?_, ?_, ?_⟩
    · intro hc
      cases hc
    · intro _
      exact ⟨rfl, rfl⟩
    · intro c hc
      simp [executed] at hc

/-- C2 at the inputs `ls -la` (run as typed) and `rm -rf /tmp/x` (blocked),
safe mode, `offlineWorld`. -/
theorem direct_pass_gates_then_runs_witness :
    executed (iteration ⟨false, false, false⟩ offlineWorld "ls -la\n".toList).events =
      ["ls -la".toList] ∧
    executed (iteration ⟨false, false, false⟩ offlineWorld "rm -rf /tmp/x\n".toList).events =
      [] ∧
    (iteration ⟨false, false, false⟩ offlineWorld "rm -rf /tmp/x\n".toList).events =
      [.print .prompt, .gate "rm -rf /tmp/x".toList false, .print .rmNotAllowed] :=
  have h1 := direct_pass_gates_then_runs ⟨false, false, false⟩ offlineWorld "ls -la\n".toList
    rfl (by decide)
  have h2 := direct_pass_gates_then_runs ⟨false, false, false⟩ offlineWorld
    "rm -rf /tmp/x\n".toList rfl (by decide)
  ⟨(h1.2.2.1 (by decide)).1, (h2.2.2.2.1 (by decide)).1, (h2.2.2.2.1 (by decide)).2⟩

theorem executed_iteration_ai (f : Flags) (w : World) (stdin : GoString)
    (hai : f.aiMode = true) :
    (trimSpace (readString '\n' stdin).1 ≠ "exit".toList ∧
        (askAI w f.verbose (trimSpace (readString '\n' stdin).1)).err = none ∧
        trimSpace (readString '\n' (readString '\n' stdin).2).1 = "y".toList ∧
        isAllowed (askAI w f.verbose (trimSpace (readString '\n' stdin).1)).text
          f.unsafeMode = true ∧
        executed (iteration f w stdin).events =
          [(askAI w f.verbose (trimSpace (readString '\n' stdin).1)).text]) ∨
    ((trimSpace (readString '\n' stdin).1 = "exit".toList ∨
        (askAI w f.verbose (trimSpace (readString '\n' stdin).1)).err ≠ none ∨
        trimSpace (readString '\n' (readString '\n' stdin).2).1 ≠ "y".toList ∨
        isAllowed (askAI w f.verbose (trimSpace (readString '\n' stdin).1)).text
          f.unsafeMode = false) ∧
      executed (iteration f w stdin).events = []) := by
  have hq := (askAI_events_quiet w f.verbose (trimSpace (readString '\n' stdin).1)).1
  by_cases hex : trimSpace (readString '\n' stdin).1 = "exit".toList
  · exact Or.inr ⟨Or.inl hex, by rw [iteration_exit f w stdin hex]; rfl⟩
  · cases hp : (askAI w f.verbose (trimSpace (readString '\n' stdin).1)).panicked with
    | true =>
      refine Or.inr ⟨Or.inr (Or.inl ?_), ?_⟩
      · rw [(askAI_of_panicked w f.verbose _ hp).1]
        simp
      · rw [iteration_ai_panic f w stdin hai hex hp]
        rfl
    | false =>
    cases herr : (askAI w f.verbose (trimSpace (readString '\n' stdin).1)).err with
    | some e =>
      refine Or.inr ⟨Or.inr (Or.inl (by simp)), ?_⟩
      rw [iteration_ai_error f w stdin e hai hex hp herr]
      simp [executed, executed_append, hq]
    | none =>
      have hev : executed (iteration f w stdin).events =
          executed (if trimSpace (readString '\n' (readString '\n' stdin).2).1 ≠ "y".toList then
            [.print .skipped]
          else
            (filterAndRun f w (askAI w f.verbose (trimSpace (readString '\n' stdin).1)).text
              (readString '\n' (readString '\n' stdin).2).2).events) := by
        rw [iteration_ai_ok f w stdin hai hex herr]
        change executed (([.print .prompt, .askAI _] ++ (_ ++ [.print (.suggested _),
          .print .runThis])) ++ _) = _
        rw [executed_append, executed_append, executed_append, hq]
        rfl
      rw [hev]
      by_cases hy : trimSpace (readString '\n' (readString '\n' stdin).2).1 = "y".toList
      · rw [if_neg (not_not.2 hy), executed_filterAndRun]
        cases hal : isAllowed (askAI w f.verbose (trimSpace (readString '\n' stdin).1)).text
            f.unsafeMode with
        | true => exact Or.inl ⟨hex, rfl, hy, rfl, rfl⟩
        | false => exact Or.inr ⟨Or.inr (Or.inr (Or.inr rfl)), rfl⟩
      · rw [if_pos hy]
        exact Or.inr ⟨Or.inr (Or.inr (Or.inl hy)), rfl⟩

/-- C3: in translation mode one pass of the loop runs a command only if
`askAI` succeeded, the trimmed confirmation line is exactly `y` and the
safety filter allows the suggestion, and the command run is then the text
`askAI` returned; it runs at most one.  After an `askAI` error, or any
confirmation other than `y`, it runs nothing; and when all three conditions
hold on a line other than `exit`, it does run the suggestion. -/
theorem ai_pass_runs_only_confirmed (f : Flags) (w : World) (stdin : GoString)
    (hai : f.aiMode = true) :
    (∀ c ∈ executed (iteration f w stdin).events,
      (askAI w f.verbose (trimSpace (readString '\n' stdin).1)).err = none ∧
      trimSpace (readString '\n' (readString '\n' stdin).2).1 = "y".toList ∧
      isAllowed (askAI w f.verbose (trimSpace (readString '\n' stdin).1)).text
        f.unsafeMode = true ∧
      c = (askAI w f.verbose (trimSpace (readString '\n' stdin).1)).text) ∧
    (executed (iteration f w stdin).events).length ≤ 1 ∧
    ((askAI w f.verbose (trimSpace (readString '\n' stdin).1)).err ≠ none →
      executed (iteration f w stdin).events = []) ∧
    (trimSpace (readString '\n' (readString '\n' stdin).2).1 ≠ "y".toList →
      executed (iteration f w stdin).events = []) ∧
    (trimSpace (readString '\n' stdin).1 ≠ "exit".toList →
      (askAI w f.verbose (trimSpace (readString '\n' stdin).1)).err = none →
      trimSpace (readString '\n' (readString '\n' stdin).2).1 = "y".toList →
      isAllowed (askAI w f.verbose (trimSpace (readString '\n' stdin).1)).text
        f.unsafeMode = true →
      executed (iteration f w stdin).events =
        [(askAI w f.verbose (trimSpace (readString '\n' stdin).1)).text]) := by
  rcases executed_iteration_ai f w stdin hai with ⟨h1, h2, h3, h4, h5⟩ | ⟨hno, h5⟩
  · rw [h5]
    refine ⟨?_, by simp, fun h => absurd h2 h, fun h => absurd h3 h, fun _ _ _ _ => rfl⟩
    intro c hc
    exact ⟨h2, h3, h4, by simpa using hc⟩
  · rw [h5]
    refine ⟨?_, by simp, fun _ => rfl, fun _ => rfl, ?_⟩
    · intro c hc
      cases hc
    · intro a b c d
      rcases hno with h | h | h | h
      · exact absurd h a
      · exact absurd b h
      · exact absurd c h
      · rw [d] at h
        cases h

/-- C3 at `echoWorld`, safe mode: the suggestion `echo hi` is run after the
answer `y`, and nothing is run after `n`, `Y`, `yes` or an empty answer. -/
theorem ai_pass_runs_only_confirmed_witness :
    executed (iteration ⟨false, true, false⟩ echoWorld "say hi\ny\n".toList).events =
      ["echo hi".toList] ∧
    executed (iteration ⟨false, true, false⟩ echoWorld "say hi\nn\n".toList).events = [] ∧
    executed (iteration ⟨false, true, false⟩ echoWorld "say hi\nY\n".toList).events = [] ∧
    executed (iteration ⟨false, true, false⟩ echoWorld "say hi\nyes\n".toList).events = [] ∧
    executed (iteration ⟨false, true, false⟩ echoWorld "say hi\n\n".toList).events = [] ∧
    executed (iteration ⟨false, true, false⟩ offlineWorld "say hi\ny\n".toList).events = [] :=
  ⟨((ai_pass_runs_only_confirmed ⟨false, true, false⟩ echoWorld "say hi\ny\n".toList
      rfl).2.2.2.2 (by decide) rfl (by decide) (by decide)).trans (by decide),
    (ai_pass_runs_only_confirmed ⟨false, true, false⟩ echoWorld "say hi\nn\n".toList
      rfl).2.2.2.1 (by decide),
    (ai_pass_runs_only_confirmed ⟨false, true, false⟩ echoWorld "say hi\nY\n".toList
      rfl).2.2.2.1 (by decide),
    (ai_pass_runs_only_confirmed ⟨false, true, false⟩ echoWorld "say hi\nyes\n".toList
      rfl).2.2.2.1 (by decide),
    (ai_pass_runs_only_confirmed ⟨false, true, false⟩ echoWorld "say hi\n\n".toList
      rfl).2.2.2.1 (by decide),
    (ai_pass_runs_only_confirmed ⟨false, true, false⟩ offlineWorld "say hi\ny\n".toList
      rfl).2.2.1 (by
        intro h
        cases h)⟩

/-! ## The interactive loop, pass after pass -/

theorem iteration_not_exit (f : Flags) (w : World) (stdin : GoString)
    (hne : trimSpace (readString '\n' stdin).1 ≠ "exit".toList) :
    (iteration f w stdin).status ≠ .exited ∧
    ∃ tail, (iteration f w stdin).events = .print .prompt :: tail := by
  cases hai : f.aiMode with
  | false =>
    rw [iteration_direct f w stdin hai hne]
    exact ⟨(filterAndRun_status f w _ _).1, _, rfl⟩
  | true =>
    cases hp : (askAI w f.verbose (trimSpace (readString '\n' stdin).1)).panicked with
    | true =>
      rw [iteration_ai_panic f w stdin hai hne hp]
      exact ⟨fun h => Status.noConfusion h, _, rfl⟩
    | false =>
      cases herr : (askAI w f.verbose (trimSpace (readString '\n' stdin).1)).err with
      | some e =>
        rw [iteration_ai_error f w stdin e hai hne hp herr]
        exact ⟨fun h => Status.noConfusion h, _, rfl⟩
      | none =>
        rw [iteration_ai_ok f w stdin hai hne herr]
        refine ⟨?_, _, rfl⟩
        change (if _ then _ else _) ≠ _
        split
        · exact fun h => Status.noConfusion h
        · exact (filterAndRun_status f w _ _).1

theorem iteration_running (f : Flags) (w : World) (stdin : GoString)
    (hw : w.handsOff)
    (hne : trimSpace (readString '\n' stdin).1 ≠ "exit".toList)
    (h : f.aiMode = false ∨
      (askAI w f.verbose (trimSpace (readString '\n' stdin).1)).panicked = false) :
    (iteration f w stdin).status = .running := by
  cases hai : f.aiMode with
  | false =>
    rw [iteration_direct f w stdin hai hne]
    exact (filterAndRun_handsOff f w _ _ hw).2
  | true =>
    have hp : (askAI w f.verbose (trimSpace (readString '\n' stdin).1)).panicked = false := by
      rcases h with h | h
      · rw [hai] at h
        cases h
      · exact h
    cases herr : (askAI w f.verbose (trimSpace (readString '\n' stdin).1)).err with
    | some e => rw [iteration_ai_error f w stdin e hai hne hp herr]
    | none =>
      rw [iteration_ai_ok f w stdin hai hne herr]
      change (if _ then _ else _) = _
      split
      · rfl
      · exact (filterAndRun_handsOff f w _ _ hw).2

theorem iteration_stdin (f : Flags) (w : World) (stdin : GoString) (hw : w.handsOff) :
    (iteration f w stdin).stdin = (readString '\n' stdin).2 ∨
    (iteration f w stdin).stdin = (readString '\n' (readString '\n' stdin).2).2 := by
  by_cases hex : trimSpace (readString '\n' stdin).1 = "exit".toList
  · rw [iteration_exit f w stdin hex]
    exact Or.inl rfl
  · cases hai : f.aiMode with
    | false =>
      rw [iteration_direct f w stdin hai hex]
      exact Or.inl (filterAndRun_handsOff f w _ _ hw).1
    | true =>
      cases hp : (askAI w f.verbose (trimSpace (readString '\n' stdin).1)).panicked with
      | true =>
        rw [iteration_ai_panic f w stdin hai hex hp]
        exact Or.inl rfl
      | false =>
        cases herr : (askAI w f.verbose (trimSpace (readString '\n' stdin).1)).err with
        | some e =>
          rw [iteration_ai_error f w stdin e hai hex hp herr]
          exact Or.inl rfl
        | none =>
          rw [iteration_ai_ok f w stdin hai hex herr]
          refine Or.inr ?_
          change (if _ then _ else _) = _
          split
          · rfl
          · exact (filterAndRun_handsOff f w _ _ hw).1

theorem loop_succ_of_running (f : Flags) (ws : Nat → World) (fuel i : Nat)
    (stdin : GoString) (h : (iteration f (ws i) stdin).status = .running) :
    loop f ws (fuel + 1) i stdin =
      ⟨(iteration f (ws i) stdin).events ++
          (loop f ws fuel (i + 1) (iteration f (ws i) stdin).stdin).events,
        (loop f ws fuel (i + 1) (iteration f (ws i) stdin).stdin).stdin,
        (loop f ws fuel (i + 1) (iteration f (ws i) stdin).stdin).status⟩ := by
  conv_lhs => unfold loop
  simp only [h]

theorem loop_succ_of_stopped (f : Flags) (ws : Nat → World) (fuel i : Nat)
    (stdin : GoString) (h : (iteration f (ws i) stdin).status ≠ .running) :
    loop f ws (fuel + 1) i stdin = iteration f (ws i) stdin := by
  conv_lhs => unfold loop
  cases hs : (iteration f (ws i) stdin).status with
  | running => exact absurd hs h
  | exited => simp only [hs]
  | panicked => simp only [hs]
  | killed => simp only [hs]

/-- A line that trims to `exit` reaches the `break`: the loop is over however
many passes it was still given, and all it did is print the prompt that
preceded the read and the goodbye line. -/
theorem exit_ends_loop (f : Flags) (ws : Nat → World) (fuel i : Nat) (stdin : GoString)
    (he : trimSpace (readString '\n' stdin).1 = "exit".toList) :
    (iteration f (ws i) stdin).status = .exited ∧
    (loop f ws (fuel + 1) i stdin).status = .exited ∧
    (loop f ws (fuel + 1) i stdin).events = [.print .prompt, .print .goodbye] ∧
    prompts (loop f ws (fuel + 1) i stdin).events = 1 ∧
    aiCalls (loop f ws (fuel + 1) i stdin).events = [] ∧
    gated (loop f ws (fuel + 1) i stdin).events = [] ∧
    requests (loop f ws (fuel + 1) i stdin).events = [] ∧
    executed (loop f ws (fuel + 1) i stdin).events = [] := by
  have hit := iteration_exit f (ws i) stdin he
  rw [loop_succ_of_stopped f ws fuel i stdin (by rw [hit]; exact fun h => Status.noConfusion h), hit]
  exact ⟨rfl, rfl, rfl, rfl, rfl, rfl, rfl, rfl⟩

/-- A line that does not trim to `exit` never reaches the `break`; when the
command run leaves the loop alone and, in translation mode, `askAI` returns,
the next pass follows on what is left of the input. -/
theorem other_line_goes_on (f : Flags) (ws : Nat → World) (fuel i : Nat) (stdin : GoString)
    (hne : trimSpace (readString '\n' stdin).1 ≠ "exit".toList) :
    (iteration f (ws i) stdin).status ≠ .exited ∧
    ((ws i).handsOff →
      (f.aiMode = false ∨
        (askAI (ws i) f.verbose (trimSpace (readString '\n' stdin).1)).panicked = false) →
      (iteration f (ws i) stdin).status = .running ∧
      (loop f ws (fuel + 1) i stdin).events =
        (iteration f (ws i) stdin).events ++
          (loop f ws fuel (i + 1) (iteration f (ws i) stdin).stdin).events ∧
      (loop f ws (fuel + 1) i stdin).status =
        (loop f ws fuel (i + 1) (iteration f (ws i) stdin).stdin).status) := by
  refine ⟨(iteration_not_exit f (ws i) stdin hne).1, fun hw h => ?_⟩
  have hs := iteration_running f (ws i) stdin hw hne h
  rw [loop_succ_of_running f ws fuel i stdin hs]
  exact ⟨hs, rfl, rfl⟩

/-- C7, where the program departs from it: in translation mode, with a
credential set and a model identifier with which the URL of line 63 does not
parse, a line that does not trim to `exit` ends the program in that pass all
the same.  The request of line 87 is nil, line 88 dereferences it, and the
loop is over after the prompt that preceded the read: no request is sent, no
command is run and no further prompt is shown. -/
theorem non_exit_line_panics (f : Flags) (ws : Nat → World) (fuel i : Nat)
    (stdin : GoString) (hai : f.aiMode = true)
    (hne : trimSpace (readString '\n' stdin).1 ≠ "exit".toList)
    (hkey : (ws i).getenv "AWS_BEARER_TOKEN_BEDROCK".toList ≠ [])
    (hurl : (ws i).urlParses
      (buildRequest (ws i) ((ws i).getenv "AWS_BEARER_TOKEN_BEDROCK".toList)
        (trimSpace (readString '\n' stdin).1)).url = false) :
    (iteration f (ws i) stdin).status = .panicked ∧
    (loop f ws (fuel + 1) i stdin).status = .panicked ∧
    (loop f ws (fuel + 1) i stdin).events =
      [.print .prompt, .askAI (trimSpace (readString '\n' stdin).1)] ∧
    prompts (loop f ws (fuel + 1) i stdin).events = 1 ∧
    requests (loop f ws (fuel + 1) i stdin).events = [] ∧
    executed (loop f ws (fuel + 1) i stdin).events = [] := by
  have hp := (askAI_panicked_iff (ws i) f.verbose (trimSpace (readString '\n' stdin).1)).2
    ⟨hkey, hurl⟩
  have hit := iteration_ai_panic f (ws i) stdin hai hne hp
  rw [loop_succ_of_stopped f ws fuel i stdin (by rw [hit]; exact fun h => Status.noConfusion h), hit]
  exact ⟨rfl, rfl, rfl, rfl, rfl, rfl⟩

/-- C7 at `badModelWorld` (credential set, `BEDROCK_MODEL_ID=%zz`), started
with `--ai`, input `Exit` then `ls`: the program is over after `Exit`. -/
theorem non_exit_line_panics_witness :
    trimSpace (readString '\n' "Exit\nls\n".toList).1 ≠ "exit".toList ∧
    (loop ⟨false, true, false⟩ (fun _ => badModelWorld) 3 0 "Exit\nls\n".toList).status =
      .panicked ∧
    (loop ⟨false, true, false⟩ (fun _ => badModelWorld) 3 0 "Exit\nls\n".toList).events =
      [.print .prompt, .askAI "Exit".toList] :=
  have h := non_exit_line_panics ⟨false, true, false⟩ (fun _ => badModelWorld) 2 0
    "Exit\nls\n".toList rfl (by decide) (by decide) (by decide)
  ⟨by decide, h.2.1, h.2.2.1⟩

/-! ## The interactive loop at the end of the input -/

theorem inputLines_of_ne_nil (s : GoString) (hs : s ≠ []) :
    inputLines s = (readString '\n' s).1 :: inputLines (readString '\n' s).2 := by
  induction s with
  | nil => exact absurd rfl hs
  | cons c s ih =>
    by_cases hc : c = '\n'
    · simp only [inputLines, readString, if_pos hc]
    · simp only [inputLines, readString, if_neg hc]
      cases s with
      | nil => rfl
      | cons d s => rw [ih (List.cons_ne_nil d s)]

theorem inputLines_rest_subset (s : GoString) :
    ∀ l ∈ inputLines (readString '\n' s).2, l ∈ inputLines s := by
  intro l hl
  cases s with
  | nil => exact hl
  | cons c s =>
    rw [inputLines_of_ne_nil (c :: s) (List.cons_ne_nil c s)]
    exact List.mem_cons_of_mem _ hl

theorem first_line_not_exit (s : GoString)
    (h : ∀ l ∈ inputLines s, trimSpace l ≠ "exit".toList) :
    trimSpace (readString '\n' s).1 ≠ "exit".toList := by
  cases s with
  | nil => decide
  | cons c s =>
    apply h
    rw [inputLines_of_ne_nil (c :: s) (List.cons_ne_nil c s)]
    exact List.mem_cons_self _ _

theorem loop_never_exits (f : Flags) (ws : Nat → World) (hrun : ∀ i, (ws i).handsOff) :
    ∀ (fuel i : Nat) (stdin : GoString),
      (∀ l ∈ inputLines stdin, trimSpace l ≠ "exit".toList) →
      (loop f ws fuel i stdin).status ≠ .exited ∧
      (f.aiMode = false →
        (loop f ws fuel i stdin).status = .running ∧
        fuel ≤ prompts (loop f ws fuel i stdin).events) := by
  intro fuel
  induction fuel with
  | zero =>
    intro i stdin _
    exact ⟨fun h => Status.noConfusion h, fun _ => ⟨rfl, Nat.zero_le _⟩⟩
  | succ fuel ih =>
    intro i stdin h
    have hne := first_line_not_exit stdin h
    obtain ⟨hnx, tail, htail⟩ := iteration_not_exit f (ws i) stdin hne
    have hsub : ∀ l ∈ inputLines (iteration f (ws i) stdin).stdin,
        trimSpace l ≠ "exit".toList := by
      intro l hl
      apply h
      rcases iteration_stdin f (ws i) stdin (hrun i) with hr | hr
      · rw [hr] at hl
        exact inputLines_rest_subset stdin l hl
      · rw [hr] at hl
        exact inputLines_rest_subset stdin l (inputLines_rest_subset _ l hl)
    obtain ⟨hx, hd⟩ := ih (i + 1) (iteration f (ws i) stdin).stdin hsub
    constructor
    · cases hs : (iteration f (ws i) stdin).status with
      | running =>
        rw [loop_succ_of_running f ws fuel i stdin hs]
        exact hx
      | exited => exact absurd hs hnx
      | panicked =>
        rw [loop_succ_of_stopped f ws fuel i stdin
          (by rw [hs]; exact fun h => Status.noConfusion h), hs]
        exact fun h => Status.noConfusion h
      | killed =>
        rw [loop_succ_of_stopped f ws fuel i stdin
          (by rw [hs]; exact fun h => Status.noConfusion h), hs]
        exact fun h => Status.noConfusion h
    · intro hai
      have hs := iteration_running f (ws i) stdin (hrun i) hne (Or.inl hai)
      rw [loop_succ_of_running f ws fuel i stdin hs]
      refine ⟨(hd hai).1, ?_⟩
      have := (hd hai).2
      simp only [prompts_append, htail, prompts]
      omega

theorem iteration_direct_nil (f : Flags) (w : World) (hai : f.aiMode = false) :
    executed (iteration f w []).events = [[]] ∧
    gated (iteration f w []).events = [[]] ∧
    (w.handsOff → (iteration f w []).status = .running ∧ (iteration f w []).stdin = []) := by
  have hne : trimSpace (readString '\n' []).1 ≠ "exit".toList := by decide
  have hal : isAllowed (trimSpace (readString '\n' []).1) f.unsafeMode = true := by
    cases f.unsafeMode <;> decide
  obtain ⟨tail, ht, he, hg, -⟩ :=
    filterAndRun_allowed f w (trimSpace (readString '\n' []).1) (readString '\n' []).2 hal
  rw [iteration_direct f w [] hai hne]
  refine ⟨?_, ?_, fun hw => ?_⟩
  · change executed ([.print .prompt] ++ (filterAndRun f w _ _).events) = _
    rw [ht, executed_append, executed_append, he]
    rfl
  · change gated ([.print .prompt] ++ (filterAndRun f w _ _).events) = _
    rw [ht, gated_append, gated_append, hg]
    rfl
  · have := filterAndRun_handsOff f w (trimSpace (readString '\n' []).1)
      (readString '\n' []).2 hw
    exact ⟨this.2, this.1⟩

theorem loop_direct_nil (f : Flags) (ws : Nat → World) (hai : f.aiMode = false)
    (hrun : ∀ i, (ws i).handsOff) :
    ∀ fuel i : Nat, executed (loop f ws fuel i []).events = List.replicate fuel [] := by
  intro fuel
  induction fuel with
  | zero =>
    intro i
    rfl
  | succ fuel ih =>
    intro i
    obtain ⟨h2, -, h3⟩ := iteration_direct_nil f (ws i) hai
    obtain ⟨hs, h1⟩ := h3 (hrun i)
    rw [loop_succ_of_running f ws fuel i [] hs]
    simp only [executed_append, h1, h2, ih, List.replicate_succ, List.singleton_append]

/-- The model lets a command read the input away from the loop, and end the
program: in `greedyWorld` the line `ls` that follows `cat` never reaches the
loop, and in `hostileWorld` the loop is over after `kill $PPID`. -/
theorem child_can_interfere :
    executed (loop ⟨false, false, false⟩ (fun _ => greedyWorld) 3 0 "cat\nls\n".toList).events =
      ["cat".toList, [], []] ∧
    (loop ⟨false, false, false⟩ (fun _ => hostileWorld) 3 0
      "kill $PPID\nls\n".toList).status = .killed ∧
    executed (loop ⟨false, false, false⟩ (fun _ => hostileWorld) 3 0
      "kill $PPID\nls\n".toList).events = ["kill $PPID".toList] := by
  decide

/-- C8, as the program has it: the end of the input does not end the loop.
A read that fails yields the empty text, which is handled like an empty line
and is not `exit`.  On an input stream none of whose lines trims to `exit`,
and as long as the commands run leave the loop alone (they read nothing from
the shared input stream and do not end the program), the loop has not reached
the `break` after any number of passes; in direct mode it is still running
and each pass has shown its prompt.  A pass that starts at the end of the
input does not reach the `break`, and in direct mode each such pass puts the
empty command through the safety filter and runs it. -/
theorem loop_outlives_end_of_input (f : Flags) (ws : Nat → World) (stdin : GoString)
    (h : ∀ l ∈ inputLines stdin, trimSpace l ≠ "exit".toList)
    (hrun : ∀ i, (ws i).handsOff) :
    (∀ fuel i : Nat, (loop f ws fuel i stdin).status ≠ .exited) ∧
    (f.aiMode = false → ∀ fuel i : Nat,
      (loop f ws fuel i stdin).status = .running ∧
      fuel ≤ prompts (loop f ws fuel i stdin).events) ∧
    (∀ w : World, (iteration f w []).status ≠ .exited) ∧
    (f.aiMode = false →
      (∀ w : World, gated (iteration f w []).events = [[]] ∧
        executed (iteration f w []).events = [[]]) ∧
      ∀ fuel i : Nat, executed (loop f ws fuel i []).events = List.replicate fuel []) := by
  refine ⟨fun fuel i => (loop_never_exits f ws hrun fuel i stdin h).1,
    fun hai fuel i => (loop_never_exits f ws hrun fuel i stdin h).2 hai, ?_, ?_⟩
  · intro w
    exact (iteration_not_exit f w [] (by decide)).1
  · intro hai
    refine ⟨fun w => ?_, loop_direct_nil f ws hai hrun⟩
    obtain ⟨h1, h2, -⟩ := iteration_direct_nil f w hai
    exact ⟨h2, h1⟩

/-- C8 at the stream `ls`, `pwd` (no final newline), direct mode, commands
that leave the loop alone: five passes in, the loop is still running. -/
theorem loop_outlives_end_of_input_witness :
    (∀ l ∈ inputLines "ls\npwd".toList, trimSpace l ≠ "exit".toList) ∧
    (loop ⟨false, false, false⟩ (fun _ => offlineWorld) 5 0 "ls\npwd".toList).status =
      .running ∧
    executed (loop ⟨false, false, false⟩ (fun _ => offlineWorld) 5 0 "ls\npwd".toList).events =
      ["ls".toList, "pwd".toList, [], [], []] :=
  ⟨by decide,
    (((loop_outlives_end_of_input ⟨false, false, false⟩ (fun _ => offlineWorld)
      "ls\npwd".toList (by decide) (fun _ _ _ => ⟨rfl, rfl⟩)).2.1 rfl 5 0).1),
    by decide⟩

/-- C8 fails on the stream made of the one line `ls`: no line of it trims to
`exit`, and the loop never reaches the `break` nor ends otherwise; after `ls`
it runs the empty command pass after pass. -/
theorem eof_does_not_end_loop :
    (∀ l ∈ inputLines "ls\n".toList, trimSpace l ≠ "exit".toList) ∧
    (¬ ∃ fuel : Nat,
      (loop ⟨false, false, false⟩ (fun _ => offlineWorld) fuel 0 "ls\n".toList).status ≠
        .running) ∧
    executed (loop ⟨false, false, false⟩ (fun _ => offlineWorld) 4 0 "ls\n".toList).events =
      ["ls".toList, [], [], []] := by
  refine ⟨by decide, ?_, by decide⟩
  rintro ⟨fuel, hfuel⟩
  exact hfuel ((loop_never_exits ⟨false, false, false⟩ (fun _ => offlineWorld)
    (fun _ _ _ => ⟨rfl, rfl⟩) fuel 0 "ls\n".toList (by decide)).2 rfl).1

/-! ## The flag loop -/

theorem handleFlags_filter_known (args : List GoString) :
    ∀ f : Flags,
      handleFlags (args.filter (fun a => decide (a ∈ knownFlags))) f = handleFlags args f := by
  induction args with
  | nil =>
    intro f
    rfl
  | cons arg args ih =>
    intro f
    by_cases hk : arg ∈ knownFlags
    · rw [List.filter_cons_of_pos (by simpa using hk)]
      simp only [handleFlags, ih]
    · rw [List.filter_cons_of_neg (by simpa using hk), ih]
      have h1 : ¬ (arg = "--help".toList ∨ arg = "-h".toList) := by
        rintro (h | h) <;> exact hk (by rw [h]; decide)
      have h2 : ¬ (arg = "--version".toList ∨ arg = "-v".toList) := by
        rintro (h | h) <;> exact hk (by rw [h]; decide)
      have h3 : ¬ arg = "--unsafe".toList := fun h => hk (by rw [h]; decide)
      have h4 : ¬ arg = "--ai".toList := fun h => hk (by rw [h]; decide)
      have h5 : ¬ arg = "--verbose".toList := fun h => hk (by rw [h]; decide)
      conv_rhs => unfold handleFlags
      simp only [if_neg h1, if_neg h2, if_neg h3, if_neg h4, if_neg h5]

theorem handleFlags_first_wins (pre : List GoString) (a : GoString) (post : List GoString)
    (hpre : ∀ x ∈ pre, ¬ isHelpFlag x ∧ ¬ isVersionFlag x) :
    ∀ f : Flags,
      (isHelpFlag a → (handleFlags (pre ++ a :: post) f).1 = .help) ∧
      (isVersionFlag a → ¬ isHelpFlag a → (handleFlags (pre ++ a :: post) f).1 = .version) := by
  induction pre with
  | nil =>
    intro f
    constructor
    · intro ha
      simp only [List.nil_append, handleFlags, if_pos ha]
    · intro ha hna
      simp only [List.nil_append, handleFlags, if_neg hna, if_pos ha]
  | cons x pre ih =>
    intro f
    have hx := hpre x (List.mem_cons_self _ _)
    have ih' := ih (fun y hy => hpre y (List.mem_cons_of_mem _ hy))
    simp only [List.cons_append, handleFlags, if_neg hx.1, if_neg hx.2]
    split
    · exact ih' _
    · split
      · exact ih' _
      · split
        · exact ih' _
        · exact ih' _

theorem handleFlags_enter (args : List GoString)
    (h : ∀ x ∈ args, ¬ isHelpFlag x ∧ ¬ isVersionFlag x) :
    ∀ f : Flags, ∃ g : Flags,
      (handleFlags args f).1 = .enter g ∧
      (g.unsafeMode = true ↔ f.unsafeMode = true ∨ "--unsafe".toList ∈ args) ∧
      (g.aiMode = true ↔ f.aiMode = true ∨ "--ai".toList ∈ args) ∧
      (g.verbose = true ↔ f.verbose = true ∨ "--verbose".toList ∈ args) := by
  induction args with
  | nil =>
    intro f
    exact ⟨f, rfl, by simp, by simp, by simp⟩
  | cons x args ih =>
    intro f
    have hx := h x (List.mem_cons_self _ _)
    have ih' := ih (fun y hy => h y (List.mem_cons_of_mem _ hy))
    simp only [handleFlags, if_neg hx.1, if_neg hx.2, List.mem_cons]
    by_cases h3 : x = "--unsafe".toList
    · obtain ⟨g, hg, hu, ha, hv⟩ := ih' { f with unsafeMode := true }
      rw [if_pos h3]
      refine ⟨g, hg, ?_, ?_, ?_⟩
      · exact ⟨fun _ => Or.inr (Or.inl h3.symm), fun _ => hu.2 (Or.inl rfl)⟩
      · rw [ha, h3]
        have : ¬ "--ai".toList = "--unsafe".toList := by decide
        simp only [this, false_or]
      · rw [hv, h3]
        have : ¬ "--verbose".toList = "--unsafe".toList := by decide
        simp only [this, false_or]
    · rw [if_neg h3]
      by_cases h4 : x = "--ai".toList
      · obtain ⟨g, hg, hu, ha, hv⟩ := ih' { f with aiMode := true }
        rw [if_pos h4]
        refine ⟨g, hg, ?_, ?_, ?_⟩
        · rw [hu, h4]
          have : ¬ "--unsafe".toList = "--ai".toList := by decide
          simp only [this, false_or]
        · exact ⟨fun _ => Or.inr (Or.inl h4.symm), fun _ => ha.2 (Or.inl rfl)⟩
        · rw [hv, h4]
          have : ¬ "--verbose".toList = "--ai".toList := by decide
          simp only [this, false_or]
      · rw [if_neg h4]
        by_cases h5 : x = "--verbose".toList
        · obtain ⟨g, hg, hu, ha, hv⟩ := ih' { f with verbose := true }
          rw [if_pos h5]
          refine ⟨g, hg, ?_, ?_, ?_⟩
          · rw [hu, h5]
            have : ¬ "--unsafe".toList = "--verbose".toList := by decide
            simp only [this, false_or]
          · rw [ha, h5]
            have : ¬ "--ai".toList = "--verbose".toList := by decide
            simp only [this, false_or]
          · exact ⟨fun _ => Or.inr (Or.inl h5.symm), fun _ => hv.2 (Or.inl rfl)⟩
        · obtain ⟨g, hg, hu, ha, hv⟩ := ih' f
          rw [if_neg h5]
          refine ⟨g, hg, ?_, ?_, ?_⟩
          · rw [hu]
            have hx3 : ¬ "--unsafe".toList = x := fun h => h3 h.symm
            simp only [hx3, false_or]
          · rw [ha]
            have hx4 : ¬ "--ai".toList = x := fun h => h4 h.symm
            simp only [hx4, false_or]
          · rw [hv]
            have hx5 : ¬ "--verbose".toList = x := fun h => h5 h.symm
            simp only [hx5, false_or]

theorem handleFlags_help (args : List GoString) (hh : ∃ a ∈ args, isHelpFlag a)
    (hv : ∀ a ∈ args, ¬ isVersionFlag a) :
    ∀ f : Flags, (handleFlags args f).1 = .help := by
  induction args with
  | nil =>
    obtain ⟨a, ha, -⟩ := hh
    cases ha
  | cons x args ih =>
    intro f
    by_cases hx : isHelpFlag x
    · simp only [handleFlags, if_pos hx]
    · have hin : ∃ a ∈ args, isHelpFlag a := by
        obtain ⟨a, ha, hha⟩ := hh
        rcases List.mem_cons.1 ha with rfl | ha'
        · exact absurd hha hx
        · exact ⟨a, ha', hha⟩
      have ih' := ih hin (fun y hy => hv y (List.mem_cons_of_mem _ hy))
      simp only [handleFlags, if_neg hx, if_neg (hv x (List.mem_cons_self _ _))]
      split
      · exact ih' _
      · split
        · exact ih' _
        · split
          · exact ih' _
          · exact ih' _

theorem handleFlags_version (args : List GoString) (hv : ∃ a ∈ args, isVersionFlag a)
    (hh : ∀ a ∈ args, ¬ isHelpFlag a) :
    ∀ f : Flags, (handleFlags args f).1 = .version := by
  induction args with
  | nil =>
    obtain ⟨a, ha, -⟩ := hv
    cases ha
  | cons x args ih =>
    intro f
    have hx := hh x (List.mem_cons_self _ _)
    by_cases hxv : isVersionFlag x
    · simp only [handleFlags, if_neg hx, if_pos hxv]
    · have hin : ∃ a ∈ args, isVersionFlag a := by
        obtain ⟨a, ha, hha⟩ := hv
        rcases List.mem_cons.1 ha with rfl | ha'
        · exact absurd hha hxv
        · exact ⟨a, ha', hha⟩
      have ih' := ih hin (fun y hy => hh y (List.mem_cons_of_mem _ hy))
      simp only [handleFlags, if_neg hx, if_neg hxv]
      split
      · exact ih' _
      · split
        · exact ih' _
        · split
          · exact ih' _
          · exact ih' _

theorem isVersionFlag_not_help (a : GoString) (h : isVersionFlag a) : ¬ isHelpFlag a := by
  rcases h with h | h <;> rw [h] <;> decide

theorem Flags.eq_of_iff (g g' : Flags) (hu : g.unsafeMode = true ↔ g'.unsafeMode = true)
    (ha : g.aiMode = true ↔ g'.aiMode = true) (hv : g.verbose = true ↔ g'.verbose = true) :
    g = g' := by
  cases g
  cases g'
  simp only [Flags.mk.injEq]
  exact ⟨Bool.eq_iff_iff.2 hu, Bool.eq_iff_iff.2 ha, Bool.eq_iff_iff.2 hv⟩

theorem parseArgs_of_not_both (args args' : List GoString) (hp : args.Perm args')
    (hnb : ¬ ((∃ a ∈ args, isHelpFlag a) ∧ ∃ a ∈ args, isVersionFlag a)) :
    parseArgs args = parseArgs args' ∧
    (parseArgs args = .help ↔ ∃ a ∈ args, isHelpFlag a) ∧
    (parseArgs args = .version ↔ ∃ a ∈ args, isVersionFlag a) ∧
    ((¬ ∃ a ∈ args, isHelpFlag a ∨ isVersionFlag a) → ∃ g, parseArgs args = .enter g) ∧
    (∀ g, parseArgs args = .enter g →
      (g.unsafeMode = true ↔ "--unsafe".toList ∈ args) ∧
      (g.aiMode = true ↔ "--ai".toList ∈ args) ∧
      (g.verbose = true ↔ "--verbose".toList ∈ args)) ∧
    (∀ pre a post, args = pre ++ a :: post →
      (∀ x ∈ pre, ¬ isHelpFlag x ∧ ¬ isVersionFlag x) →
      (isHelpFlag a → parseArgs args = .help) ∧
      (isVersionFlag a → parseArgs args = .version)) ∧
    parseArgs (args.filter (fun a => decide (a ∈ knownFlags))) = parseArgs args := by
  have hfirst : ∀ pre a post, args = pre ++ a :: post →
      (∀ x ∈ pre, ¬ isHelpFlag x ∧ ¬ isVersionFlag x) →
      (isHelpFlag a → parseArgs args = .help) ∧
      (isVersionFlag a → parseArgs args = .version) := by
    intro pre a post hargs hpre
    have := handleFlags_first_wins pre a post hpre ⟨false, false, false⟩
    rw [hargs]
    exact ⟨this.1, fun hv => this.2 hv (isVersionFlag_not_help a hv)⟩
  have hfilter : parseArgs (args.filter (fun a => decide (a ∈ knownFlags))) = parseArgs args := by
    unfold parseArgs
    rw [handleFlags_filter_known]
  refine ⟨?_, ?_, ?_, ?_, ?_, hfirst, hfilter⟩
  all_goals unfold parseArgs
  all_goals
    by_cases hH : ∃ a ∈ args, isHelpFlag a
    · have hV : ∀ a ∈ args, ¬ isVersionFlag a := fun a ha hva => hnb ⟨hH, a, ha, hva⟩
      have e1 := handleFlags_help args hH hV ⟨false, false, false⟩
      have e2 := handleFlags_help args'
        (by obtain ⟨a, ha, h⟩ := hH; exact ⟨a, hp.mem_iff.1 ha, h⟩)
        (fun a ha => hV a (hp.mem_iff.2 ha)) ⟨false, false, false⟩
      first
      | rw [e1, e2]
      | exact ⟨fun _ => hH, fun _ => e1⟩
      | (rw [e1]
         constructor
         · intro h
           cases h
         · rintro ⟨a, ha, h⟩
           exact absurd h (hV a ha))
      | (rintro hno
         obtain ⟨a, ha, h⟩ := hH
         exact absurd ⟨a, ha, Or.inl h⟩ hno)
      | (intro g hg
         rw [e1] at hg
         cases hg)
    · have hH' : ∀ a ∈ args, ¬ isHelpFlag a := fun a ha h => hH ⟨a, ha, h⟩
      by_cases hV : ∃ a ∈ args, isVersionFlag a
      · have e1 := handleFlags_version args hV hH' ⟨false, false, false⟩
        have e2 := handleFlags_version args'
          (by obtain ⟨a, ha, h⟩ := hV; exact ⟨a, hp.mem_iff.1 ha, h⟩)
          (fun a ha => hH' a (hp.mem_iff.2 ha)) ⟨false, false, false⟩
        first
        | rw [e1, e2]
        | exact ⟨fun _ => hV, fun _ => e1⟩
        | (rw [e1]
           constructor
           · intro h
             cases h
           · intro h
             exact absurd h hH)
        | (rintro hno
           obtain ⟨a, ha, h⟩ := hV
           exact absurd ⟨a, ha, Or.inr h⟩ hno)
        | (intro g hg
           rw [e1] at hg
           cases hg)
      · have hnone : ∀ x ∈ args, ¬ isHelpFlag x ∧ ¬ isVersionFlag x :=
          fun x hx => ⟨hH' x hx, fun h => hV ⟨x, hx, h⟩⟩
        obtain ⟨g, hg, hu, ha, hv⟩ := handleFlags_enter args hnone ⟨false, false, false⟩
        obtain ⟨g', hg', hu', ha', hv'⟩ := handleFlags_enter args'
          (fun x hx => hnone x (hp.mem_iff.2 hx)) ⟨false, false, false⟩
        simp only [Bool.false_eq_true, false_or] at hu ha hv hu' ha' hv'
        have hgg : g = g' := by
          apply Flags.eq_of_iff
          · rw [hu, hu', hp.mem_iff]
          · rw [ha, ha', hp.mem_iff]
          · rw [hv, hv', hp.mem_iff]
        first
        | rw [hg, hg', hgg]
        | (rw [hg]
           constructor
           · intro h
             cases h
           · intro h
             first
             | exact absurd h hH
             | exact absurd h hV)
        | exact fun _ => ⟨g, hg⟩
        | (intro g0 hg0
           rw [hg] at hg0
           cases hg0
           exact ⟨hu, ha, hv⟩)

theorem handleFlags_stops (args : List GoString)
    (h : ∃ a ∈ args, isHelpFlag a ∨ isVersionFlag a) :
    ∀ f : Flags, (handleFlags args f).1 = .help ∨ (handleFlags args f).1 = .version := by
  induction args with
  | nil =>
    obtain ⟨a, ha, -⟩ := h
    cases ha
  | cons x args ih =>
    intro f
    by_cases hx : isHelpFlag x
    · exact Or.inl (by simp only [handleFlags, if_pos hx])
    · by_cases hxv : isVersionFlag x
      · exact Or.inr (by simp only [handleFlags, if_neg hx, if_pos hxv])
      · have hin : ∃ a ∈ args, isHelpFlag a ∨ isVersionFlag a := by
          obtain ⟨a, ha, hfl⟩ := h
          rcases List.mem_cons.1 ha with rfl | ha'
          · rcases hfl with hfl | hfl
            · exact absurd hfl hx
            · exact absurd hfl hxv
          · exact ⟨a, ha', hfl⟩
        have ih' := ih hin
        simp only [handleFlags, if_neg hx, if_neg hxv]
        split
        · exact ih' _
        · split
          · exact ih' _
          · split
            · exact ih' _
            · exact ih' _

/-- C9, as the program has it: the flag loop is order-independent except
between help and version.  For an argument list that does not hold both a
help flag (`--help`, `-h`) and a version flag (`--version`, `-v`), every
permutation gives the same outcome: help iff a help flag occurs, version iff
a version flag occurs.  For every list: the loop is entered iff neither
occurs, and then each of the three flags is true iff its argument occurs; the
first help or version flag decides, also when both occur; and arguments
without a `case` never change the outcome, so two lists that agree once such
arguments are dropped give the same outcome. -/
theorem parseArgs_order_independent (args : List GoString) :
    (∀ args', args.Perm args' →
      ¬ ((∃ a ∈ args, isHelpFlag a) ∧ ∃ a ∈ args, isVersionFlag a) →
      parseArgs args = parseArgs args') ∧
    (¬ ((∃ a ∈ args, isHelpFlag a) ∧ ∃ a ∈ args, isVersionFlag a) →
      (parseArgs args = .help ↔ ∃ a ∈ args, isHelpFlag a) ∧
      (parseArgs args = .version ↔ ∃ a ∈ args, isVersionFlag a)) ∧
    ((∃ g, parseArgs args = .enter g) ↔ ¬ ∃ a ∈ args, isHelpFlag a ∨ isVersionFlag a) ∧
    (∀ g, parseArgs args = .enter g →
      (g.unsafeMode = true ↔ "--unsafe".toList ∈ args) ∧
      (g.aiMode = true ↔ "--ai".toList ∈ args) ∧
      (g.verbose = true ↔ "--verbose".toList ∈ args)) ∧
    (∀ pre a post, args = pre ++ a :: post →
      (∀ x ∈ pre, ¬ isHelpFlag x ∧ ¬ isVersionFlag x) →
      (isHelpFlag a → parseArgs args = .help) ∧
      (isVersionFlag a → parseArgs args = .version)) ∧
    parseArgs (args.filter (fun a => decide (a ∈ knownFlags))) = parseArgs args ∧
    ∀ args' : List GoString,
      args'.filter (fun a => decide (a ∈ knownFlags)) =
        args.filter (fun a => decide (a ∈ knownFlags)) →
      parseArgs args' = parseArgs args := by
  have hfilter : ∀ l : List GoString,
      parseArgs (l.filter (fun a => decide (a ∈ knownFlags))) = parseArgs l := by
    intro l
    unfold parseArgs
    rw [handleFlags_filter_known]
  have hnoflag : ∀ g, parseArgs args = .enter g →
      ¬ ∃ a ∈ args, isHelpFlag a ∨ isVersionFlag a := by
    intro g hg hex
    unfold parseArgs at hg
    rcases handleFlags_stops args hex ⟨false, false, false⟩ with h | h
    · rw [h] at hg
      cases hg
    · rw [h] at hg
      cases hg
  refine ⟨?_, ?_, ?_, ?_, ?_, hfilter args, ?_⟩
  · intro args' hp hnb
    exact (parseArgs_of_not_both args args' hp hnb).1
  · intro hnb
    have h := parseArgs_of_not_both args args (List.Perm.refl _) hnb
    exact ⟨h.2.1, h.2.2.1⟩
  · constructor
    · rintro ⟨g, hg⟩
      exact hnoflag g hg
    · intro hno
      have hnb : ¬ ((∃ a ∈ args, isHelpFlag a) ∧ ∃ a ∈ args, isVersionFlag a) := by
        rintro ⟨⟨a, ha, hh⟩, -⟩
        exact hno ⟨a, ha, Or.inl hh⟩
      exact (parseArgs_of_not_both args args (List.Perm.refl _) hnb).2.2.2.1 hno
  · intro g hg
    have hno := hnoflag g hg
    have hnb : ¬ ((∃ a ∈ args, isHelpFlag a) ∧ ∃ a ∈ args, isVersionFlag a) := by
      rintro ⟨⟨a, ha, hh⟩, -⟩
      exact hno ⟨a, ha, Or.inl hh⟩
    exact (parseArgs_of_not_both args args (List.Perm.refl _) hnb).2.2.2.2.1 g hg
  · intro pre a post hargs hpre
    have := handleFlags_first_wins pre a post hpre ⟨false, false, false⟩
    rw [hargs]
    exact ⟨this.1, fun hv => this.2 hv (isVersionFlag_not_help a hv)⟩
  · intro args' hsame
    rw [← hfilter args', hsame, hfilter args]

/-- C9 at `--ai junk --unsafe` and a reordering of it, which give the same
flags, and at `--unsafe -v junk --help`, where `-v` comes first and decides. -/
theorem parseArgs_order_independent_witness :
    parseArgs ["--ai".toList, "junk".toList, "--unsafe".toList] =
      parseArgs ["--unsafe".toList, "--ai".toList, "junk".toList] ∧
    parseArgs ["--ai".toList, "junk".toList, "--unsafe".toList] = .enter ⟨true, true, false⟩ ∧
    parseArgs ["--unsafe".toList, "-v".toList, "junk".toList, "--help".toList] = .version :=
  ⟨(parseArgs_order_independent ["--ai".toList, "junk".toList, "--unsafe".toList]).1
      ["--unsafe".toList, "--ai".toList, "junk".toList] (by decide) (by decide),
    by decide,
    ((parseArgs_order_independent
      ["--unsafe".toList, "-v".toList, "junk".toList, "--help".toList]).2.2.2.2.1
      ["--unsafe".toList] "-v".toList ["junk".toList, "--help".toList] rfl (by decide)).2
      (by decide)⟩

/-- C9 fails on `--help --version`: it prints the help, and its permutation
`--version --help` prints the version. -/
theorem parseArgs_order_matters :
    List.Perm ["--help".toList, "--version".toList] ["--version".toList, "--help".toList] ∧
    parseArgs ["--help".toList, "--version".toList] = .help ∧
    parseArgs ["--version".toList, "--help".toList] = .version ∧
    parseArgs ["--help".toList, "--version".toList] ≠
      parseArgs ["--version".toList, "--help".toList] :=
  ⟨List.Perm.swap _ _ _, by decide, by decide, by decide⟩

end CliHelp
